import Mathlib

/-!
Verification of the img-proxy caching reverse proxy (src/main.rs).

The Rust source is shallowly embedded: the two in-memory caches become
explicit finite maps passed in and returned, the filesystem becomes a map
from paths to byte lists, outbound HTTP is an oracle function supplied as an
argument, and every call to the system clock becomes an explicit `Int`
parameter measured in nanoseconds since the epoch (the precision of
`chrono::DateTime<Utc>`).  Machine arithmetic is `Nat`/`Int` with explicit
wrap-around (`% 2 ^ 32`, `% 2 ^ 64`) where the Rust release build wraps.
External pure libraries used by the source (`sha2`, `hex`, `base64`,
`borsh`, UTF-8 string encoding) are modelled bit-for-bit below.
-/

namespace ImgProxy

/-! ## Generic finite-map helpers (model of `HashMap` get / insert / remove) -/

/-- Pointwise update of a map, modelling `HashMap::insert`. -/
def mapInsert {κ ν : Type} [DecidableEq κ] (m : κ → Option ν) (k : κ) (v : ν) :
    κ → Option ν :=
  fun x => if x = k then some v else m x

/-- Pointwise removal, modelling `HashMap::remove`. -/
def mapRemove {κ ν : Type} [DecidableEq κ] (m : κ → Option ν) (k : κ) :
    κ → Option ν :=
  fun x => if x = k then none else m x

/-! ## UTF-8 (model of Rust `str::as_bytes` and of `String` (de)serialization) -/

/-- UTF-8 encoding of a single scalar value, as bytes. -/
def utf8EncodeChar (c : Char) : List Nat :=
  let n := c.toNat
  if n < 0x80 then [n]
  else if n < 0x800 then [0xc0 + n / 64, 0x80 + n % 64]
  else if n < 0x10000 then [0xe0 + n / 4096, 0x80 + n / 64 % 64, 0x80 + n % 64]
  else [0xf0 + n / 262144, 0x80 + n / 4096 % 64, 0x80 + n / 64 % 64, 0x80 + n % 64]

/-- UTF-8 encoding of a character sequence. -/
def utf8Encode (cs : List Char) : List Nat :=
  (cs.map utf8EncodeChar).flatten

/-- Decode one UTF-8 scalar value from the head of a byte list, rejecting
continuation-byte starts, overlong forms, surrogates and out-of-range values. -/
def utf8DecodeChar : List Nat → Option (Char × List Nat)
  | [] => none
  | b :: bs =>
    if b < 0x80 then some (Char.ofNat b, bs)
    else if b < 0xc2 then none
    else if b < 0xe0 then
      match bs with
      | b1 :: bs1 =>
        if 0x80 ≤ b1 ∧ b1 < 0xc0 then
          some (Char.ofNat ((b - 0xc0) * 64 + (b1 - 0x80)), bs1)
        else none
      | [] => none
    else if b < 0xf0 then
      match bs with
      | b1 :: b2 :: bs2 =>
        if (0x80 ≤ b1 ∧ b1 < 0xc0) ∧ (0x80 ≤ b2 ∧ b2 < 0xc0) then
          let n := (b - 0xe0) * 4096 + (b1 - 0x80) * 64 + (b2 - 0x80)
          if 0x800 ≤ n ∧ (n < 0xd800 ∨ 0xe000 ≤ n) then some (Char.ofNat n, bs2)
          else none
        else none
      | _ => none
    else if b < 0xf5 then
      match bs with
      | b1 :: b2 :: b3 :: bs3 =>
        if (0x80 ≤ b1 ∧ b1 < 0xc0) ∧ (0x80 ≤ b2 ∧ b2 < 0xc0) ∧ (0x80 ≤ b3 ∧ b3 < 0xc0) then
          let n := (b - 0xf0) * 262144 + (b1 - 0x80) * 4096 + (b2 - 0x80) * 64 + (b3 - 0x80)
          if 0x10000 ≤ n ∧ n < 0x110000 then some (Char.ofNat n, bs3)
          else none
        else none
      | _ => none
    else none

/-- Fueled UTF-8 decoding loop; the fuel is an upper bound on the byte count. -/
def utf8DecodeAux : Nat → List Nat → Option (List Char)
  | _, [] => some []
  | 0, _ :: _ => none
  | fuel + 1, bs =>
    (utf8DecodeChar bs).bind fun cr => (utf8DecodeAux fuel cr.2).map (cr.1 :: ·)

/-- Decode a full byte list as UTF-8, or fail. -/
def utf8Decode (bs : List Nat) : Option (List Char) :=
  utf8DecodeAux bs.length bs

/-- Byte representation of a Rust `String` / `str` value. -/
def strBytes (s : String) : List Nat := utf8Encode s.data

/-! ## SHA-256 (model of the `sha2` crate, FIPS 180-4) -/

/-- Right rotation of a 32-bit word held in a `Nat` below `2 ^ 32`. -/
def rotr32 (x n : Nat) : Nat := ((x >>> n) ||| (x <<< (32 - n))) % (2 ^ 32)

/-- Schedule sigma-0 function. -/
def ssig0 (x : Nat) : Nat := (rotr32 x 7) ^^^ (rotr32 x 18) ^^^ (x >>> 3)

/-- Schedule sigma-1 function. -/
def ssig1 (x : Nat) : Nat := (rotr32 x 17) ^^^ (rotr32 x 19) ^^^ (x >>> 10)

/-- Compression Sigma-0 function. -/
def bsig0 (x : Nat) : Nat := (rotr32 x 2) ^^^ (rotr32 x 13) ^^^ (rotr32 x 22)

/-- Compression Sigma-1 function. -/
def bsig1 (x : Nat) : Nat := (rotr32 x 6) ^^^ (rotr32 x 11) ^^^ (rotr32 x 25)

/-- Round constants. -/
def sha256K : List Nat :=
  [1116352408, 1899447441, 3049323471, 3921009573, 961987163, 1508970993,
   2453635748, 2870763221, 3624381080, 310598401, 607225278, 1426881987,
   1925078388, 2162078206, 2614888103, 3248222580, 3835390401, 4022224774,
   264347078, 604807628, 770255983, 1249150122, 1555081692, 1996064986,
   2554220882, 2821834349, 2952996808, 3210313671, 3336571891, 3584528711,
   113926993, 338241895, 666307205, 773529912, 1294757372, 1396182291,
   1695183700, 1986661051, 2177026350, 2456956037, 2730485921, 2820302411,
   3259730800, 3345764771, 3516065817, 3600352804, 4094571909, 275423344,
   430227734, 506948616, 659060556, 883997877, 958139571, 1322822218,
   1537002063, 1747873779, 1955562222, 2024104815, 2227730452, 2361852424,
   2428436474, 2756734187, 3204031479, 3329325298]

/-- Initial hash state. -/
def sha256H0 : List Nat :=
  [1779033703, 3144134277, 1013904242, 2773480762, 1359893119, 2600822924,
   528734635, 1541459225]

/-- Big-endian byte expansion of `n` into `k` bytes. -/
def beBytes : Nat → Nat → List Nat
  | 0, _ => []
  | k + 1, n => beBytes k (n / 256) ++ [n % 256]

/-- Group a byte list into big-endian 32-bit words (trailing partial group dropped). -/
def wordsBE : List Nat → List Nat
  | b0 :: b1 :: b2 :: b3 :: rest =>
      (b0 * 0x1000000 + b1 * 0x10000 + b2 * 0x100 + b3) :: wordsBE rest
  | _ => []

/-- Padding: append `0x80`, zeros up to 56 mod 64, then the 8-byte bit length. -/
def sha256Pad (msg : List Nat) : List Nat :=
  let L := msg.length
  let zeros := (120 - (L + 1) % 64) % 64
  msg ++ 0x80 :: List.replicate zeros 0 ++ beBytes 8 (L * 8)

/-- Extend the 16-word message schedule by `fuel` further words. -/
def extendW : Nat → List Nat → List Nat
  | 0, ws => ws
  | f + 1, ws =>
      let t := ws.length
      extendW f (ws ++ [(ssig1 (ws.getD (t - 2) 0) + ws.getD (t - 7) 0 +
        ssig0 (ws.getD (t - 15) 0) + ws.getD (t - 16) 0) % (2 ^ 32)])

/-- One round of the compression function on the 8-word working state. -/
def sha256Round (st : List Nat) (k w : Nat) : List Nat :=
  match st with
  | [a, b, c, d, e, f, g, h] =>
      let ch := (e &&& f) ^^^ ((e ^^^ 0xffffffff) &&& g)
      let t1 := (h + bsig1 e + ch + k + w) % (2 ^ 32)
      let maj := (a &&& b) ^^^ (a &&& c) ^^^ (b &&& c)
      let t2 := (bsig0 a + maj) % (2 ^ 32)
      [(t1 + t2) % (2 ^ 32), a, b, c, (d + t1) % (2 ^ 32), e, f, g]
  | st => st

/-- Compress a single 64-byte block into the hash state. -/
def sha256Block (H : List Nat) (block : List Nat) : List Nat :=
  let w := extendW 48 (wordsBE block)
  let st := (sha256K.zip w).foldl (fun st kw => sha256Round st kw.1 kw.2) H
  (H.zip st).map fun p => (p.1 + p.2) % (2 ^ 32)

/-- Split a list into 64-byte blocks, driven by a fuel counter. -/
def toBlocks : Nat → List Nat → List (List Nat)
  | 0, _ => []
  | _, [] => []
  | f + 1, l => l.take 64 :: toBlocks f (l.drop 64)

/-- SHA-256 of a byte list, as 32 bytes; models `fn sha256` of the source,
which delegates to the `sha2` crate. -/
def sha256 (data : List Nat) : List Nat :=
  let padded := sha256Pad data
  let Hf := (toBlocks padded.length padded).foldl sha256Block sha256H0
  (Hf.map (beBytes 4)).flatten

/-! ## Lowercase hex encoding (model of `hex::encode`) -/

/-- Lowercase hexadecimal digit. -/
def hexDigit (n : Nat) : Char :=
  if n < 10 then Char.ofNat (48 + n) else Char.ofNat (87 + n)

/-- Lowercase hex string of a byte list. -/
def hexEncode (bs : List Nat) : String :=
  ⟨(bs.map fun b => [hexDigit (b / 16), hexDigit (b % 16)]).flatten⟩

/-! ## Base64 (model of `base64::decode`, standard alphabet) -/

/-- Value of one standard-alphabet base64 symbol. -/
def b64Val (c : Char) : Option Nat :=
  if 'A' ≤ c ∧ c ≤ 'Z' then some (c.toNat - 65)
  else if 'a' ≤ c ∧ c ≤ 'z' then some (c.toNat - 97 + 26)
  else if '0' ≤ c ∧ c ≤ '9' then some (c.toNat - 48 + 52)
  else if c = '+' then some 62
  else if c = '/' then some 63
  else none

/-- Strip trailing padding: at most two `=` and only on a 4-aligned input. -/
def b64StripPad (cs : List Char) : Option (List Char) :=
  let rev := cs.reverse
  let p := (rev.takeWhile (· == '=')).length
  if p = 0 then some cs
  else if p ≤ 2 ∧ cs.length % 4 = 0 then some (rev.drop p).reverse
  else none

/-- Translate every symbol to its 6-bit value. -/
def b64Vals : List Char → Option (List Nat)
  | [] => some []
  | c :: cs => (b64Val c).bind fun v => (b64Vals cs).map (v :: ·)

/-- Reassemble 6-bit groups into bytes; a trailing group of 1 symbol, or
nonzero discarded bits, is rejected. -/
def b64Bytes : List Nat → Option (List Nat)
  | [] => some []
  | [_] => none
  | [v1, v2] => if v2 % 16 = 0 then some [v1 * 4 + v2 / 16] else none
  | [v1, v2, v3] =>
      if v3 % 4 = 0 then some [v1 * 4 + v2 / 16, v2 % 16 * 16 + v3 / 4] else none
  | v1 :: v2 :: v3 :: v4 :: rest =>
      (b64Bytes rest).map
        ([v1 * 4 + v2 / 16, v2 % 16 * 16 + v3 / 4, v3 % 4 * 64 + v4] ++ ·)

/-- Base64 decoding of a string to bytes (model of `base64::decode`). -/
def base64Decode (s : String) : Option (List Nat) :=
  (b64StripPad s.data).bind fun body => (b64Vals body).bind b64Bytes

/-! ## Plain string helpers (models of the `str` methods used by the source) -/

/-- Split a character list at the first occurrence of `sep`; models both
`str::split_once` and the two-element `str::splitn` iterator. -/
def splitOnceAux (sep : Char) : List Char → Option (List Char × List Char)
  | [] => none
  | c :: cs =>
      if c = sep then some ([], cs)
      else (splitOnceAux sep cs).map fun p => (c :: p.1, p.2)

/-- Split a string at the first occurrence of `sep`, if any. -/
def splitOnce (sep : Char) (s : String) : Option (String × String) :=
  (splitOnceAux sep s.data).map fun p => (⟨p.1⟩, ⟨p.2⟩)

/-- Model of `str::starts_with`. -/
def strStartsWith (s pre : String) : Bool :=
  pre.data.isPrefixOf s.data

/-- Model of byte slicing `s[n..]` at an ASCII-aligned boundary. -/
def strDrop (s : String) (n : Nat) : String := ⟨s.data.drop n⟩

/-! ## Data model (translated from src/main.rs) -/

/-- Number of nanoseconds per second; our model clock counts nanoseconds. -/
def NANOS : Int := 1000000000

/-- Constant `MAGIC_CACHE_DURATION_SECONDS` of the source. -/
def MAGIC_CACHE_DURATION_SECONDS : Int := 1 * 60 * 60

/-- Constant `REGULAR_CACHE_DURATION_SECONDS` of the source. -/
def REGULAR_CACHE_DURATION_SECONDS : Int := 30 * 24 * 60 * 60

/-- Constant `MAX_REFRESH_TIMEOUT` of the source (a `u64`, in seconds). -/
def MAX_REFRESH_TIMEOUT : Nat := 60 * 60

/-- Constant `PURGE_MAGIC_KEYWORD` of the source. -/
def PURGE_MAGIC_KEYWORD : String := "purge"

/-- Enum `ImgType`. -/
inductive ImgType : Type
  | Thumbnail : ImgType
  | Large : ImgType
deriving DecidableEq

/-- Debug formatting of `ImgType` (used by `format!("{:?}", ...)`). -/
def ImgType.debugStr : ImgType → String
  | .Thumbnail => "Thumbnail"
  | .Large => "Large"

/-- Struct `Image`: a content type and an opaque byte body. -/
structure Image : Type where
  content_type : String
  body : List Nat
deriving DecidableEq

/-- Struct `ImageWithCacheDuration`. -/
structure ImageWithCacheDuration : Type where
  image : Image
  cache_duration_seconds : Int
deriving DecidableEq

/-- Enum `FetchError`; `Status` carries the upstream status code. -/
inductive FetchError : Type
  | InvalidRescaleType : FetchError
  | RequestFailed : FetchError
  | UnsupportedContentType : FetchError
  | BodyReadFailed : FetchError
  | TextReadFailed : FetchError
  | InvalidDataUrl : FetchError
  | Purge : FetchError
  | Status : Nat → FetchError
deriving DecidableEq

/-- Enum `CachedImage`; timestamps are nanoseconds since the epoch. -/
inductive CachedImage : Type
  | Failed : FetchError → List Int → CachedImage
  | Success : Image → Int → CachedImage
deriving DecidableEq

/-- Enum `CachedMagicUrl`. -/
inductive CachedMagicUrl : Type
  | Failed : FetchError → List Int → CachedMagicUrl
  | Success : String → Nat → Int → CachedMagicUrl
deriving DecidableEq

/-- Type alias `ImgPair`. -/
abbrev ImgPair : Type := ImgType × String

/-- The in-memory image cache (`ImgCache` behind its mutex). -/
abbrev ImgMap : Type := ImgPair → Option CachedImage

/-- The in-memory magic cache (`MagicCache` behind its mutex). -/
abbrev MagicMap : Type := String → Option CachedMagicUrl

/-- The filesystem, as a map from paths to file contents. -/
abbrev FS : Type := String → Option (List Nat)

/-- Struct `SavedImage`, the on-disk envelope. -/
structure SavedImage : Type where
  pair : ImgPair
  image : Image
  time_nanos : Int
deriving DecidableEq

/-! ## Borsh serialization of `SavedImage`
(model of the `borsh` crate derive for the types above) -/

/-- Little-endian byte expansion of `n` into `k` bytes. -/
def leBytes : Nat → Nat → List Nat
  | 0, _ => []
  | k + 1, n => n % 256 :: leBytes k (n / 256)

/-- Parse `k` little-endian bytes into a value, returning the rest. -/
def parseLE : Nat → List Nat → Option (Nat × List Nat)
  | 0, bs => some (0, bs)
  | _ + 1, [] => none
  | k + 1, b :: bs => (parseLE k bs).map fun p => (b + 256 * p.1, p.2)

/-- Take exactly `k` bytes, returning them and the rest. -/
def takeExact : Nat → List Nat → Option (List Nat × List Nat)
  | 0, bs => some ([], bs)
  | _ + 1, [] => none
  | k + 1, b :: bs => (takeExact k bs).map fun p => (b :: p.1, p.2)

/-- Borsh encoding of an `ImgType` (enum tag byte). -/
def borshImgType : ImgType → List Nat
  | .Thumbnail => [0]
  | .Large => [1]

/-- Borsh encoding of a string: `u32` length then UTF-8 bytes. -/
def borshString (s : String) : List Nat :=
  leBytes 4 (strBytes s).length ++ strBytes s

/-- Borsh encoding of a `Vec<u8>`: `u32` length then the bytes. -/
def borshVec (v : List Nat) : List Nat :=
  leBytes 4 v.length ++ v

/-- Borsh encoding of an `i64` in two's complement, little-endian. -/
def borshI64 (t : Int) : List Nat :=
  leBytes 8 (t % (2 ^ 64 : Int)).toNat

/-- Borsh encoding of the whole `SavedImage` envelope, fields in order. -/
def borshSavedImage (si : SavedImage) : List Nat :=
  borshImgType si.pair.1 ++ borshString si.pair.2 ++
    borshString si.image.content_type ++ borshVec si.image.body ++
    borshI64 si.time_nanos

/-- Parse an `ImgType` tag byte. -/
def parseImgType : List Nat → Option (ImgType × List Nat)
  | 0 :: bs => some (.Thumbnail, bs)
  | 1 :: bs => some (.Large, bs)
  | _ => none

/-- Parse a borsh string (length-prefixed, UTF-8 validated). -/
def parseString (bs : List Nat) : Option (String × List Nat) :=
  (parseLE 4 bs).bind fun lr =>
    (takeExact lr.1 lr.2).bind fun sr =>
      (utf8Decode sr.1).map fun cs => (⟨cs⟩, sr.2)

/-- Parse a borsh `Vec<u8>`. -/
def parseVec (bs : List Nat) : Option (List Nat × List Nat) :=
  (parseLE 4 bs).bind fun lr => takeExact lr.1 lr.2

/-- Parse a borsh `i64`. -/
def parseI64 (bs : List Nat) : Option (Int × List Nat) :=
  (parseLE 8 bs).map fun nr =>
    (if nr.1 < 2 ^ 63 then (nr.1 : Int) else (nr.1 : Int) - 2 ^ 64, nr.2)

/-- Parse a full `SavedImage`; like `try_from_slice`, the whole input must be
consumed. -/
def parseSavedImage (bs : List Nat) : Option SavedImage :=
  (parseImgType bs).bind fun tr =>
    (parseString tr.2).bind fun ur =>
      (parseString ur.2).bind fun cr =>
        (parseVec cr.2).bind fun br =>
          (parseI64 br.2).bind fun nr =>
            if nr.2 = [] then some ⟨(tr.1, ur.1), ⟨cr.1, br.1⟩, nr.1⟩ else none

/-! ## Content store (fn pair_to_path, read_from_disk, write_to_disk) -/

/-- Translation of `fn pair_to_path`: hex of SHA-256 of the URL, split into
two 3-character shard directories and a filename, under the debug-formatted
rescale type. -/
def pair_to_path (pair : ImgPair) : String × String :=
  let filename := (hexEncode (sha256 (strBytes pair.2))).data
  let dir1 : String := ⟨filename.take 3⟩
  let dir2 : String := ⟨(filename.drop 3).take 3⟩
  let rest : String := ⟨(filename.drop 3).drop 3⟩
  let dir := "cache/" ++ pair.1.debugStr ++ "/" ++ dir1 ++ "/" ++ dir2
  (dir, dir ++ "/" ++ rest)

/-- Translation of `fn read_from_disk`: any open, read or deserialize failure
yields `none`. -/
def read_from_disk (fs : FS) (pair : ImgPair) : Option SavedImage :=
  match fs (pair_to_path pair).2 with
  | none => none
  | some buf => parseSavedImage buf

/-- Translation of `fn write_to_disk`: serialize the envelope stamped with the
current time and store it at the pair's path.  The source treats I/O failure
here as a fatal process error, so the model write always succeeds. -/
def write_to_disk (fs : FS) (pair : ImgPair) (image : Image) (now_nanos : Int) :
    FS × SavedImage :=
  let path := (pair_to_path pair).2
  let saved : SavedImage := ⟨pair, image, now_nanos⟩
  (mapInsert fs path (borshSavedImage saved), saved)

/-! ## Image cache, magic resolver and dispatcher
(fns cache_and_return, magic_fetch_and_cache, resolve_magic_url, proxy_img) -/

/-- Reconstruction of a `DateTime` from saved nanoseconds, as performed by
`cache_and_return` (truncating division and remainder, recombined). -/
def reconstructTimeNanos (n : Int) : Int :=
  n.tdiv NANOS * NANOS + n.tmod NANOS

/-- Translation of `fn cache_and_return`: install a `Success` entry for the
envelope's own pair and hand back the image. -/
def cache_and_return (imgs : ImgMap) (saved : SavedImage) : Image × ImgMap :=
  (saved.image,
   mapInsert imgs saved.pair
     (.Success saved.image (reconstructTimeNanos saved.time_nanos)))

/-- Backoff window of the image cache, in nanoseconds:
`Duration::seconds(min(MAX_REFRESH_TIMEOUT, 2u64.pow(num_attempts - 1)))`
where `num_attempts = attempts.len() as u32` and both the `u32` subtraction
and the `u64` exponentiation wrap (release-build semantics). -/
def imgBackoffNanos (len : Nat) : Int :=
  let num_attempts := len % 2 ^ 32
  let e := (num_attempts + (2 ^ 32 - 1)) % 2 ^ 32
  (min MAX_REFRESH_TIMEOUT (2 ^ e % 2 ^ 64) : Nat) * NANOS

/-- Backoff window of the magic resolver; the source repeats the identical
expression. -/
def magicBackoffNanos (len : Nat) : Int :=
  let num_attempts := len % 2 ^ 32
  let e := (num_attempts + (2 ^ 32 - 1)) % 2 ^ 32
  (min MAX_REFRESH_TIMEOUT (2 ^ e % 2 ^ 64) : Nat) * NANOS

/-- Outcome of a magic-resolver step: result, updated magic cache, the URLs
passed to `fetch_magic_url`, and the background tasks spawned (with the
attempts list each task was given). -/
structure MagicOut : Type where
  res : Except FetchError (String × Nat)
  magic : MagicMap
  magicFetches : List String
  spawns : List (String × List Int)

/-- Translation of `fn magic_fetch_and_cache`.  `fetchMagic` is the outbound
fetch oracle and `now` the clock value at the cache write. -/
def magic_fetch_and_cache (fetchMagic : String → Except FetchError (String × Nat))
    (now : Int) (url : String) (magic : MagicMap) (attempts : List Int) : MagicOut :=
  match fetchMagic url with
  | .ok ms =>
      ⟨.ok ms, mapInsert magic url (.Success ms.1 ms.2 now), [url], []⟩
  | .error err =>
      ⟨.error err, mapInsert magic url (.Failed err (attempts ++ [now])), [url], []⟩

/-- Translation of `fn resolve_magic_url`.  `now` is the clock at the cache
inspection, `nowFetch` the clock inside any fresh `magic_fetch_and_cache`
call.  A stale `Success` entry is returned as-is while a background refresh
with an empty attempts list is spawned (recorded, not yet applied, since it
runs concurrently). -/
def resolve_magic_url (fetchMagic : String → Except FetchError (String × Nat))
    (now nowFetch : Int) (url : String) (magic : MagicMap) : MagicOut :=
  match magic url with
  | some (.Failed err attempts) =>
      if now - (attempts.getLast?.getD 0) < magicBackoffNanos attempts.length then
        ⟨.error err, magic, [], []⟩
      else
        magic_fetch_and_cache fetchMagic nowFetch url magic attempts
  | some (.Success murl status time) =>
      if now - time > MAGIC_CACHE_DURATION_SECONDS * NANOS then
        ⟨.ok (murl, status), magic, [], [(url, [])]⟩
      else
        ⟨.ok (murl, status), magic, [], []⟩
  | none => magic_fetch_and_cache fetchMagic nowFetch url magic []

/-- Outcome of the image-resolution stage: result, updated image cache and
filesystem, the URLs passed to `fetch_img`, the pairs looked up on disk, and
the pairs written to disk. -/
structure ResolvedOut : Type where
  res : Except FetchError ImageWithCacheDuration
  imgs : ImgMap
  fs : FS
  imgFetches : List String
  diskReads : List ImgPair
  diskWrites : List (ImgPair × Image)

/-- Translation of the body of `fn proxy_img` from the data-URL check onward
(after purge handling, rescale-type parsing and magic resolution): the data
URI shortcut, then the image cache state machine.  `rescaleBase` models the
`IMAGE_RESCALE_URL_*` environment variables, `fetchImg` the outbound fetch,
`nowCheck` the clock at the backoff check and `nowFetch` the clock after a
fresh fetch (attempt timestamp and disk write time). -/
def proxy_img_resolved (fetchImg : String → Except FetchError Image)
    (rescaleBase : ImgType → String) (nowCheck nowFetch : Int)
    (img_type : ImgType) (url : String) (cache_duration_seconds : Int)
    (imgs : ImgMap) (fs : FS) : ResolvedOut :=
  if strStartsWith url "data:image/" then
    match splitOnce ',' (strDrop url 5) with
    | none => ⟨.error .InvalidDataUrl, imgs, fs, [], [], []⟩
    | some pp =>
      let content_type := ((splitOnce ';' pp.1).map Prod.fst).getD pp.1
      match base64Decode pp.2 with
      | none => ⟨.error .InvalidDataUrl, imgs, fs, [], [], []⟩
      | some body =>
          ⟨.ok ⟨⟨content_type, body⟩, cache_duration_seconds⟩, imgs, fs, [], [], []⟩
  else
    let pair : ImgPair := (img_type, url)
    let fresh : List Int → List ImgPair → ResolvedOut := fun attempts reads =>
      let fetch_url := rescaleBase img_type ++ "/" ++ url
      match fetchImg fetch_url with
      | .ok image =>
          let ws := write_to_disk fs pair image nowFetch
          let cr := cache_and_return imgs ws.2
          ⟨.ok ⟨cr.1, cache_duration_seconds⟩, cr.2, ws.1, [fetch_url], reads,
            [(pair, image)]⟩
      | .error err =>
          ⟨.error err,
            mapInsert imgs pair (.Failed err (attempts ++ [nowFetch])), fs,
            [fetch_url], reads, []⟩
    match imgs pair with
    | some (.Failed err attempts) =>
        if nowCheck - (attempts.getLast?.getD 0) < imgBackoffNanos attempts.length then
          ⟨.error err, imgs, fs, [], [], []⟩
        else
          fresh attempts []
    | some (.Success image _) =>
        ⟨.ok ⟨image, cache_duration_seconds⟩, imgs, fs, [], [], []⟩
    | none =>
        match read_from_disk fs pair with
        | some saved =>
            let cr := cache_and_return imgs saved
            ⟨.ok ⟨cr.1, cache_duration_seconds⟩, cr.2, fs, [], [pair], []⟩
        | none => fresh [] [pair]

/-- Outcome of a full request. -/
structure ProxyOut : Type where
  res : Except FetchError ImageWithCacheDuration
  imgs : ImgMap
  magic : MagicMap
  fs : FS
  imgFetches : List String
  magicFetches : List String
  diskReads : List ImgPair
  diskWrites : List (ImgPair × Image)
  spawns : List (String × List Int)

/-- Translation of `fn proxy_img`: magic-marker splitting, purge handling,
rescale-type parsing, magic resolution with its cache-duration rule, then the
resolved stage.  `tMagic`/`tMagicFetch` are the clock values inside magic
resolution, `tCheck`/`tFetch` those inside the image stage. -/
def proxy_img (fetchImg : String → Except FetchError Image)
    (fetchMagic : String → Except FetchError (String × Nat))
    (rescaleBase : ImgType → String) (tMagic tMagicFetch tCheck tFetch : Int)
    (img_type url : String) (imgs : ImgMap) (magic : MagicMap) (fs : FS) :
    ProxyOut :=
  let is_magic := img_type == "magic"
  let split : Option (String × String) :=
    if is_magic then splitOnce '/' url else some (img_type, url)
  match split with
  | none => ⟨.error .InvalidRescaleType, imgs, magic, fs, [], [], [], [], []⟩
  | some tu =>
    if tu.1 == PURGE_MAGIC_KEYWORD then
      ⟨.error .Purge, imgs, mapRemove magic tu.2, fs, [], [], [], [], []⟩
    else
      match (match tu.1 with
             | "thumbnail" => some ImgType.Thumbnail
             | "large" => some ImgType.Large
             | _ => none) with
      | none => ⟨.error .InvalidRescaleType, imgs, magic, fs, [], [], [], [], []⟩
      | some ty =>
        if is_magic then
          let m := resolve_magic_url fetchMagic tMagic tMagicFetch tu.2 magic
          match m.res with
          | .error e =>
              ⟨.error e, imgs, m.magic, fs, [], m.magicFetches, [], [], m.spawns⟩
          | .ok rs =>
              let dur : Int :=
                if rs.2 = 200 then MAGIC_CACHE_DURATION_SECONDS else 0
              let r := proxy_img_resolved fetchImg rescaleBase tCheck tFetch
                ty rs.1 dur imgs fs
              ⟨r.res, r.imgs, m.magic, r.fs, r.imgFetches, m.magicFetches,
                r.diskReads, r.diskWrites, m.spawns⟩
        else
          let r := proxy_img_resolved fetchImg rescaleBase tCheck tFetch
            ty tu.2 REGULAR_CACHE_DURATION_SECONDS imgs fs
          ⟨r.res, r.imgs, magic, r.fs, r.imgFetches, [], r.diskReads,
            r.diskWrites, []⟩

/-! ## Cache invariants and reachable states -/

/-- Every `Failed` image-cache entry carries at least one attempt timestamp. -/
def ImgCacheInv (imgs : ImgMap) : Prop :=
  ∀ p err a, imgs p = some (.Failed err a) → a ≠ []

/-- Every `Failed` magic-cache entry carries at least one attempt timestamp. -/
def MagicCacheInv (magic : MagicMap) : Prop :=
  ∀ u err a, magic u = some (.Failed err a) → a ≠ []

/-- States of the two caches reachable from process start: the maps begin
empty, evolve by whole requests, and the magic cache additionally by spawned
background refreshes (which always carry an empty attempts list). -/
inductive Reachable : ImgMap → MagicMap → Prop
  | init : Reachable (fun _ => none) (fun _ => none)
  | step (imgs : ImgMap) (magic : MagicMap)
      (fetchImg : String → Except FetchError Image)
      (fetchMagic : String → Except FetchError (String × Nat))
      (rescaleBase : ImgType → String) (tMagic tMagicFetch tCheck tFetch : Int)
      (img_type url : String) (fs : FS) :
      Reachable imgs magic →
      Reachable
        (proxy_img fetchImg fetchMagic rescaleBase tMagic tMagicFetch tCheck
          tFetch img_type url imgs magic fs).imgs
        (proxy_img fetchImg fetchMagic rescaleBase tMagic tMagicFetch tCheck
          tFetch img_type url imgs magic fs).magic
  | bg (imgs : ImgMap) (magic : MagicMap)
      (fetchMagic : String → Except FetchError (String × Nat))
      (now : Int) (url : String) :
      Reachable imgs magic →
      Reachable imgs (magic_fetch_and_cache fetchMagic now url magic []).magic

-- Decidable equality of results, used by concrete witnesses.
deriving instance DecidableEq for Except

/-! ## Map helper lemmas -/

theorem mapInsert_self {κ ν : Type} [DecidableEq κ] (m : κ → Option ν) (k : κ) (v : ν) :
    mapInsert m k v k = some v := by
  simp [mapInsert]

theorem mapInsert_other {κ ν : Type} [DecidableEq κ] (m : κ → Option ν) (k x : κ) (v : ν)
    (h : x ≠ k) : mapInsert m k v x = m x := by
  simp [mapInsert, h]

/-! ## UTF-8 round trip -/

theorem utf8EncodeChar_ne_nil (c : Char) : utf8EncodeChar c ≠ [] := by
  simp only [utf8EncodeChar]
  split_ifs <;> simp

/-- Validity bounds of a character's scalar value, in `Nat` form. -/
theorem char_toNat_valid (c : Char) :
    c.toNat < 55296 ∨ (57343 < c.toNat ∧ c.toNat < 1114112) :=
  c.valid

theorem utf8DecodeChar_encode (c : Char) (rest : List Nat) :
    utf8DecodeChar (utf8EncodeChar c ++ rest) = some (c, rest) := by
  have hv := char_toNat_valid c
  have hofnat := Char.ofNat_toNat c
  unfold utf8EncodeChar
  by_cases h1 : c.toNat < 128
  · simp only [if_pos h1, List.cons_append, List.nil_append, utf8DecodeChar,
      if_pos h1, hofnat]
  · by_cases h2 : c.toNat < 2048
    · simp only [if_neg h1, if_pos h2, List.cons_append, List.nil_append,
        utf8DecodeChar]
      rw [if_neg (by omega), if_neg (by omega), if_pos (by omega),
        if_pos (by constructor <;> omega)]
      have hval : (192 + c.toNat / 64 - 192) * 64 + (128 + c.toNat % 64 - 128)
          = c.toNat := by omega
      rw [hval, hofnat]
    · by_cases h3 : c.toNat < 65536
      · simp only [if_neg h1, if_neg h2, if_pos h3, List.cons_append,
          List.nil_append, utf8DecodeChar]
        rw [if_neg (by omega), if_neg (by omega), if_neg (by omega),
          if_pos (by omega), if_pos (by refine ⟨⟨?_, ?_⟩, ?_, ?_⟩ <;> omega)]
        have hval : (224 + c.toNat / 4096 - 224) * 4096 +
            (128 + c.toNat / 64 % 64 - 128) * 64 + (128 + c.toNat % 64 - 128)
            = c.toNat := by omega
        rw [hval, if_pos (by constructor <;> omega), hofnat]
      · simp only [if_neg h1, if_neg h2, if_neg h3, List.cons_append,
          List.nil_append, utf8DecodeChar]
        rw [if_neg (by omega), if_neg (by omega), if_neg (by omega),
          if_neg (by omega), if_pos (by omega),
          if_pos (by refine ⟨⟨?_, ?_⟩, ⟨?_, ?_⟩, ?_, ?_⟩ <;> omega)]
        have hval : (240 + c.toNat / 262144 - 240) * 262144 +
            (128 + c.toNat / 4096 % 64 - 128) * 4096 +
            (128 + c.toNat / 64 % 64 - 128) * 64 + (128 + c.toNat % 64 - 128)
            = c.toNat := by omega
        rw [hval, if_pos (by constructor <;> omega), hofnat]

theorem utf8DecodeAux_encode (cs : List Char) :
    ∀ fuel, (utf8Encode cs).length ≤ fuel →
      utf8DecodeAux fuel (utf8Encode cs) = some cs := by
  induction cs with
  | nil => intro fuel _; simp [utf8Encode, utf8DecodeAux]
  | cons c cs ih =>
      intro fuel hfuel
      have henc : utf8Encode (c :: cs) = utf8EncodeChar c ++ utf8Encode cs := by
        simp [utf8Encode]
      rw [henc] at hfuel ⊢
      have hne : utf8EncodeChar c ≠ [] := utf8EncodeChar_ne_nil c
      have hpos : 0 < (utf8EncodeChar c ++ utf8Encode cs).length := by
        rw [List.length_append]
        have h1 : 0 < (utf8EncodeChar c).length := List.length_pos.mpr hne
        omega
      obtain ⟨fuel', rfl⟩ : ∃ f, fuel = f + 1 := by
        cases fuel with
        | zero => omega
        | succ f => exact ⟨f, rfl⟩
      obtain ⟨b, bs, hbs⟩ : ∃ b bs, utf8EncodeChar c ++ utf8Encode cs = b :: bs := by
        cases hE : utf8EncodeChar c with
        | nil => exact absurd hE hne
        | cons x xs => exact ⟨x, xs ++ utf8Encode cs, by simp [hE]⟩
      rw [hbs]
      have : utf8DecodeAux (fuel' + 1) (b :: bs) =
          (utf8DecodeChar (b :: bs)).bind fun cr =>
            (utf8DecodeAux fuel' cr.2).map (cr.1 :: ·) := rfl
      rw [this, ← hbs, utf8DecodeChar_encode c (utf8Encode cs)]
      have hlen : (utf8Encode cs).length ≤ fuel' := by
        have h1 : 0 < (utf8EncodeChar c).length := List.length_pos.mpr hne
        have h2 := hfuel
        rw [List.length_append] at h2
        omega
      simp [ih fuel' hlen]

theorem utf8Decode_encode (cs : List Char) : utf8Decode (utf8Encode cs) = some cs :=
  utf8DecodeAux_encode cs (utf8Encode cs).length le_rfl

/-! ## Borsh round trip -/

theorem parseLE_leBytes (k : Nat) :
    ∀ (n : Nat) (rest : List Nat), n < 256 ^ k →
      parseLE k (leBytes k n ++ rest) = some (n, rest) := by
  induction k with
  | zero =>
      intro n rest h
      have : n = 0 := by simpa using Nat.lt_one_iff.mp (by simpa using h)
      subst this
      rfl
  | succ k ih =>
      intro n rest h
      have hdiv : n / 256 < 256 ^ k := by
        rw [Nat.div_lt_iff_lt_mul (by norm_num)]
        calc n < 256 ^ (k + 1) := h
        _ = 256 ^ k * 256 := by rw [pow_succ]
      simp only [leBytes, parseLE, List.cons_append, List.append_eq,
        ih (n / 256) rest hdiv, Option.map_some']
      have : n % 256 + 256 * (n / 256) = n := by omega
      rw [this]

theorem takeExact_append (xs : List Nat) :
    ∀ rest : List Nat, takeExact xs.length (xs ++ rest) = some (xs, rest) := by
  induction xs with
  | nil => intro rest; rfl
  | cons x xs ih =>
      intro rest
      simp only [List.length_cons, List.cons_append, List.append_eq, takeExact,
        ih rest, Option.map_some']

theorem parseString_borshString (s : String) (rest : List Nat)
    (h : (strBytes s).length < 2 ^ 32) :
    parseString (borshString s ++ rest) = some (s, rest) := by
  unfold borshString parseString
  rw [List.append_assoc, parseLE_leBytes 4 (strBytes s).length _ (by simpa using h)]
  simp only [Option.some_bind, takeExact_append (strBytes s) rest]
  simp only [Option.some_bind, strBytes, utf8Decode_encode, Option.map_some']

theorem parseVec_borshVec (v : List Nat) (rest : List Nat)
    (h : v.length < 2 ^ 32) :
    parseVec (borshVec v ++ rest) = some (v, rest) := by
  unfold borshVec parseVec
  rw [List.append_assoc, parseLE_leBytes 4 v.length _ (by simpa using h)]
  simp only [Option.some_bind, takeExact_append v rest]

theorem parseI64_borshI64 (t : Int) (rest : List Nat)
    (h1 : -(2 ^ 63) ≤ t) (h2 : t < 2 ^ 63) :
    parseI64 (borshI64 t ++ rest) = some (t, rest) := by
  unfold borshI64 parseI64
  have hlt : (t % (2 ^ 64 : Int)).toNat < 256 ^ 8 := by
    have h0 : (0 : Int) < 2 ^ 64 := by norm_num
    have := Int.emod_lt_of_pos t h0
    have := Int.emod_nonneg t (by norm_num : (2 ^ 64 : Int) ≠ 0)
    omega
  rw [parseLE_leBytes 8 _ _ hlt, Option.map_some']
  have h0 : (0 : Int) < 2 ^ 64 := by norm_num
  have hmlt := Int.emod_lt_of_pos t h0
  have hmge := Int.emod_nonneg t (by norm_num : (2 ^ 64 : Int) ≠ 0)
  by_cases hpos : 0 ≤ t
  · have hmod : t % (2 ^ 64 : Int) = t := Int.emod_eq_of_lt hpos (by omega)
    rw [hmod]
    rw [if_pos (by omega)]
    simp only [Prod.mk.injEq, Option.some_inj]
    constructor
    · omega
    · trivial
  · have hmod : t % (2 ^ 64 : Int) = t + 2 ^ 64 := by omega
    rw [hmod]
    rw [if_neg (by omega)]
    simp only [Prod.mk.injEq, Option.some_inj]
    constructor
    · omega
    · trivial

theorem parseImgType_borshImgType (ty : ImgType) (rest : List Nat) :
    parseImgType (borshImgType ty ++ rest) = some (ty, rest) := by
  cases ty <;> rfl

theorem parseSavedImage_borshSavedImage (si : SavedImage)
    (hu : (strBytes si.pair.2).length < 2 ^ 32)
    (hc : (strBytes si.image.content_type).length < 2 ^ 32)
    (hb : si.image.body.length < 2 ^ 32)
    (h1 : -(2 ^ 63) ≤ si.time_nanos) (h2 : si.time_nanos < 2 ^ 63) :
    parseSavedImage (borshSavedImage si) = some si := by
  unfold borshSavedImage parseSavedImage
  rw [List.append_assoc, List.append_assoc, List.append_assoc,
    parseImgType_borshImgType]
  simp only [Option.some_bind]
  rw [parseString_borshString _ _ hu]
  simp only [Option.some_bind]
  rw [parseString_borshString _ _ hc]
  simp only [Option.some_bind]
  rw [parseVec_borshVec _ _ hb]
  simp only [Option.some_bind]
  rw [← List.append_nil (borshI64 si.time_nanos), parseI64_borshI64 _ _ h1 h2]
  simp only [Option.some_bind]
  rfl

/-- FIPS 180-4 test vector pinning the SHA-256 model. -/
theorem sha256_abc_vector :
    sha256 [97, 98, 99] =
      [186, 120, 22, 191, 143, 1, 207, 234, 65, 65, 64,
       222, 93, 174, 34, 35, 176, 3, 97, 163, 150, 23,
       122, 156, 180, 16, 255, 97, 242, 0, 21, 173] := by
  decide

/-! ## Content-store path facts -/

theorem pair_to_path_snd_data (t : ImgType) (u : String) :
    ∃ tail : List Char,
      ((pair_to_path (t, u)).2).data =
        'c' :: 'a' :: 'c' :: 'h' :: 'e' :: '/' :: (t.debugStr.data ++ tail) := by
  simp only [pair_to_path, String.data_append, List.append_assoc]
  exact ⟨_, rfl⟩

theorem path_ne_of_type_ne (u : String) (t1 t2 : ImgType) (hne : t1 ≠ t2) :
    (pair_to_path (t1, u)).2 ≠ (pair_to_path (t2, u)).2 := by
  obtain ⟨tl1, h1⟩ := pair_to_path_snd_data t1 u
  obtain ⟨tl2, h2⟩ := pair_to_path_snd_data t2 u
  intro heq
  have hdata := congrArg String.data heq
  rw [h1, h2] at hdata
  cases t1 <;> cases t2 <;> simp [ImgType.debugStr] at hdata hne

/-! ## Branch behavior of the image-cache stage -/

theorem resolved_success_hit (fetchImg : String → Except FetchError Image)
    (rescaleBase : ImgType → String) (nowCheck nowFetch : Int) (ty : ImgType)
    (url : String) (dur : Int) (imgs : ImgMap) (fs : FS) (image : Image) (time : Int)
    (hS : strStartsWith url "data:image/" = false)
    (hc : imgs (ty, url) = some (.Success image time)) :
    proxy_img_resolved fetchImg rescaleBase nowCheck nowFetch ty url dur imgs fs =
      ⟨.ok ⟨image, dur⟩, imgs, fs, [], [], []⟩ := by
  unfold proxy_img_resolved
  rw [hS]
  simp only [Bool.false_eq_true, if_false, hc]

theorem resolved_failed_suppressed (fetchImg : String → Except FetchError Image)
    (rescaleBase : ImgType → String) (nowCheck nowFetch : Int) (ty : ImgType)
    (url : String) (dur : Int) (imgs : ImgMap) (fs : FS) (err : FetchError)
    (attempts : List Int)
    (hS : strStartsWith url "data:image/" = false)
    (hc : imgs (ty, url) = some (.Failed err attempts))
    (hlt : nowCheck - attempts.getLast?.getD 0 < imgBackoffNanos attempts.length) :
    proxy_img_resolved fetchImg rescaleBase nowCheck nowFetch ty url dur imgs fs =
      ⟨.error err, imgs, fs, [], [], []⟩ := by
  unfold proxy_img_resolved
  rw [hS]
  simp only [Bool.false_eq_true, if_false, hc, if_pos hlt]

theorem resolved_failed_expired_err (fetchImg : String → Except FetchError Image)
    (rescaleBase : ImgType → String) (nowCheck nowFetch : Int) (ty : ImgType)
    (url : String) (dur : Int) (imgs : ImgMap) (fs : FS) (err e : FetchError)
    (attempts : List Int)
    (hS : strStartsWith url "data:image/" = false)
    (hc : imgs (ty, url) = some (.Failed err attempts))
    (hge : ¬ nowCheck - attempts.getLast?.getD 0 < imgBackoffNanos attempts.length)
    (hf : fetchImg (rescaleBase ty ++ "/" ++ url) = .error e) :
    proxy_img_resolved fetchImg rescaleBase nowCheck nowFetch ty url dur imgs fs =
      ⟨.error e, mapInsert imgs (ty, url) (.Failed e (attempts ++ [nowFetch])), fs,
        [rescaleBase ty ++ "/" ++ url], [], []⟩ := by
  unfold proxy_img_resolved
  rw [hS]
  simp only [Bool.false_eq_true, if_false, hc, if_neg hge, hf]

theorem resolved_failed_expired_ok (fetchImg : String → Except FetchError Image)
    (rescaleBase : ImgType → String) (nowCheck nowFetch : Int) (ty : ImgType)
    (url : String) (dur : Int) (imgs : ImgMap) (fs : FS) (err : FetchError)
    (attempts : List Int) (image : Image)
    (hS : strStartsWith url "data:image/" = false)
    (hc : imgs (ty, url) = some (.Failed err attempts))
    (hge : ¬ nowCheck - attempts.getLast?.getD 0 < imgBackoffNanos attempts.length)
    (hf : fetchImg (rescaleBase ty ++ "/" ++ url) = .ok image) :
    proxy_img_resolved fetchImg rescaleBase nowCheck nowFetch ty url dur imgs fs =
      ⟨.ok ⟨image, dur⟩,
        mapInsert imgs (ty, url) (.Success image (reconstructTimeNanos nowFetch)),
        (write_to_disk fs (ty, url) image nowFetch).1,
        [rescaleBase ty ++ "/" ++ url], [], [((ty, url), image)]⟩ := by
  unfold proxy_img_resolved
  rw [hS]
  simp only [Bool.false_eq_true, if_false, hc, if_neg hge, hf]
  rfl

theorem resolved_miss_disk_hit (fetchImg : String → Except FetchError Image)
    (rescaleBase : ImgType → String) (nowCheck nowFetch : Int) (ty : ImgType)
    (url : String) (dur : Int) (imgs : ImgMap) (fs : FS) (saved : SavedImage)
    (hS : strStartsWith url "data:image/" = false)
    (hc : imgs (ty, url) = none)
    (hd : read_from_disk fs (ty, url) = some saved) :
    proxy_img_resolved fetchImg rescaleBase nowCheck nowFetch ty url dur imgs fs =
      ⟨.ok ⟨saved.image, dur⟩,
        mapInsert imgs saved.pair
          (.Success saved.image (reconstructTimeNanos saved.time_nanos)),
        fs, [], [(ty, url)], []⟩ := by
  unfold proxy_img_resolved
  rw [hS]
  simp only [Bool.false_eq_true, if_false, hc, hd]
  rfl

theorem resolved_miss_disk_miss_err (fetchImg : String → Except FetchError Image)
    (rescaleBase : ImgType → String) (nowCheck nowFetch : Int) (ty : ImgType)
    (url : String) (dur : Int) (imgs : ImgMap) (fs : FS) (e : FetchError)
    (hS : strStartsWith url "data:image/" = false)
    (hc : imgs (ty, url) = none)
    (hd : read_from_disk fs (ty, url) = none)
    (hf : fetchImg (rescaleBase ty ++ "/" ++ url) = .error e) :
    proxy_img_resolved fetchImg rescaleBase nowCheck nowFetch ty url dur imgs fs =
      ⟨.error e, mapInsert imgs (ty, url) (.Failed e [nowFetch]), fs,
        [rescaleBase ty ++ "/" ++ url], [(ty, url)], []⟩ := by
  unfold proxy_img_resolved
  rw [hS]
  simp only [Bool.false_eq_true, if_false, hc, hd, hf]
  rfl

theorem resolved_miss_disk_miss_ok (fetchImg : String → Except FetchError Image)
    (rescaleBase : ImgType → String) (nowCheck nowFetch : Int) (ty : ImgType)
    (url : String) (dur : Int) (imgs : ImgMap) (fs : FS) (image : Image)
    (hS : strStartsWith url "data:image/" = false)
    (hc : imgs (ty, url) = none)
    (hd : read_from_disk fs (ty, url) = none)
    (hf : fetchImg (rescaleBase ty ++ "/" ++ url) = .ok image) :
    proxy_img_resolved fetchImg rescaleBase nowCheck nowFetch ty url dur imgs fs =
      ⟨.ok ⟨image, dur⟩,
        mapInsert imgs (ty, url) (.Success image (reconstructTimeNanos nowFetch)),
        (write_to_disk fs (ty, url) image nowFetch).1,
        [rescaleBase ty ++ "/" ++ url], [(ty, url)], [((ty, url), image)]⟩ := by
  unfold proxy_img_resolved
  rw [hS]
  simp only [Bool.false_eq_true, if_false, hc, hd, hf]
  rfl

theorem resolved_data_no_comma (fetchImg : String → Except FetchError Image)
    (rescaleBase : ImgType → String) (nowCheck nowFetch : Int) (ty : ImgType)
    (url : String) (dur : Int) (imgs : ImgMap) (fs : FS)
    (hS : strStartsWith url "data:image/" = true)
    (hsplit : splitOnce ',' (strDrop url 5) = none) :
    proxy_img_resolved fetchImg rescaleBase nowCheck nowFetch ty url dur imgs fs =
      ⟨.error .InvalidDataUrl, imgs, fs, [], [], []⟩ := by
  unfold proxy_img_resolved
  rw [hS]
  simp only [if_true, hsplit]

theorem resolved_data_bad_base64 (fetchImg : String → Except FetchError Image)
    (rescaleBase : ImgType → String) (nowCheck nowFetch : Int) (ty : ImgType)
    (url : String) (dur : Int) (imgs : ImgMap) (fs : FS) (pp : String × String)
    (hS : strStartsWith url "data:image/" = true)
    (hsplit : splitOnce ',' (strDrop url 5) = some pp)
    (hb64 : base64Decode pp.2 = none) :
    proxy_img_resolved fetchImg rescaleBase nowCheck nowFetch ty url dur imgs fs =
      ⟨.error .InvalidDataUrl, imgs, fs, [], [], []⟩ := by
  unfold proxy_img_resolved
  rw [hS]
  simp only [if_true, hsplit, hb64]

theorem resolved_data_ok (fetchImg : String → Except FetchError Image)
    (rescaleBase : ImgType → String) (nowCheck nowFetch : Int) (ty : ImgType)
    (url : String) (dur : Int) (imgs : ImgMap) (fs : FS) (pp : String × String)
    (body : List Nat)
    (hS : strStartsWith url "data:image/" = true)
    (hsplit : splitOnce ',' (strDrop url 5) = some pp)
    (hb64 : base64Decode pp.2 = some body) :
    proxy_img_resolved fetchImg rescaleBase nowCheck nowFetch ty url dur imgs fs =
      ⟨.ok ⟨⟨((splitOnce ';' pp.1).map Prod.fst).getD pp.1, body⟩, dur⟩,
        imgs, fs, [], [], []⟩ := by
  unfold proxy_img_resolved
  rw [hS]
  simp only [if_true, hsplit, hb64]

/-! ## Branch behavior of the magic resolver -/

theorem mfac_err (fetchMagic : String → Except FetchError (String × Nat))
    (now : Int) (url : String) (magic : MagicMap) (attempts : List Int)
    (e : FetchError) (hf : fetchMagic url = .error e) :
    magic_fetch_and_cache fetchMagic now url magic attempts =
      ⟨.error e, mapInsert magic url (.Failed e (attempts ++ [now])), [url], []⟩ := by
  unfold magic_fetch_and_cache
  rw [hf]

theorem mfac_ok (fetchMagic : String → Except FetchError (String × Nat))
    (now : Int) (url : String) (magic : MagicMap) (attempts : List Int)
    (ms : String × Nat) (hf : fetchMagic url = .ok ms) :
    magic_fetch_and_cache fetchMagic now url magic attempts =
      ⟨.ok ms, mapInsert magic url (.Success ms.1 ms.2 now), [url], []⟩ := by
  unfold magic_fetch_and_cache
  rw [hf]

theorem magic_failed_suppressed (fetchMagic : String → Except FetchError (String × Nat))
    (now nowFetch : Int) (url : String) (magic : MagicMap) (err : FetchError)
    (attempts : List Int)
    (hc : magic url = some (.Failed err attempts))
    (hlt : now - attempts.getLast?.getD 0 < magicBackoffNanos attempts.length) :
    resolve_magic_url fetchMagic now nowFetch url magic =
      ⟨.error err, magic, [], []⟩ := by
  unfold resolve_magic_url
  simp only [hc, if_pos hlt]

theorem magic_failed_expired (fetchMagic : String → Except FetchError (String × Nat))
    (now nowFetch : Int) (url : String) (magic : MagicMap) (err : FetchError)
    (attempts : List Int)
    (hc : magic url = some (.Failed err attempts))
    (hge : ¬ now - attempts.getLast?.getD 0 < magicBackoffNanos attempts.length) :
    resolve_magic_url fetchMagic now nowFetch url magic =
      magic_fetch_and_cache fetchMagic nowFetch url magic attempts := by
  unfold resolve_magic_url
  simp only [hc, if_neg hge]

theorem magic_success_fresh (fetchMagic : String → Except FetchError (String × Nat))
    (now nowFetch : Int) (url : String) (magic : MagicMap) (murl : String)
    (status : Nat) (time : Int)
    (hc : magic url = some (.Success murl status time))
    (hfresh : ¬ now - time > MAGIC_CACHE_DURATION_SECONDS * NANOS) :
    resolve_magic_url fetchMagic now nowFetch url magic =
      ⟨.ok (murl, status), magic, [], []⟩ := by
  unfold resolve_magic_url
  simp only [hc, if_neg hfresh]

theorem magic_success_stale (fetchMagic : String → Except FetchError (String × Nat))
    (now nowFetch : Int) (url : String) (magic : MagicMap) (murl : String)
    (status : Nat) (time : Int)
    (hc : magic url = some (.Success murl status time))
    (hstale : now - time > MAGIC_CACHE_DURATION_SECONDS * NANOS) :
    resolve_magic_url fetchMagic now nowFetch url magic =
      ⟨.ok (murl, status), magic, [], [(url, [])]⟩ := by
  unfold resolve_magic_url
  simp only [hc, if_pos hstale]

theorem magic_miss (fetchMagic : String → Except FetchError (String × Nat))
    (now nowFetch : Int) (url : String) (magic : MagicMap)
    (hc : magic url = none) :
    resolve_magic_url fetchMagic now nowFetch url magic =
      magic_fetch_and_cache fetchMagic nowFetch url magic [] := by
  unfold resolve_magic_url
  simp only [hc]

/-! ## Branch behavior of the dispatcher -/

theorem dispatch_purge_plain (fetchImg : String → Except FetchError Image)
    (fetchMagic : String → Except FetchError (String × Nat))
    (rescaleBase : ImgType → String) (tMagic tMagicFetch tCheck tFetch : Int)
    (url : String) (imgs : ImgMap) (magic : MagicMap) (fs : FS) :
    proxy_img fetchImg fetchMagic rescaleBase tMagic tMagicFetch tCheck tFetch
        "purge" url imgs magic fs =
      ⟨.error .Purge, imgs, mapRemove magic url, fs, [], [], [], [], []⟩ := by
  rfl

theorem dispatch_purge_magic (fetchImg : String → Except FetchError Image)
    (fetchMagic : String → Except FetchError (String × Nat))
    (rescaleBase : ImgType → String) (tMagic tMagicFetch tCheck tFetch : Int)
    (url : String) (imgs : ImgMap) (magic : MagicMap) (fs : FS)
    (pu : String × String)
    (hsplit : splitOnce '/' url = some pu) (hp : pu.1 = "purge") :
    proxy_img fetchImg fetchMagic rescaleBase tMagic tMagicFetch tCheck tFetch
        "magic" url imgs magic fs =
      ⟨.error .Purge, imgs, mapRemove magic pu.2, fs, [], [], [], [], []⟩ := by
  unfold proxy_img
  simp only [show (("magic" : String) == "magic") = true from rfl, if_true,
    hsplit, hp]
  rfl

theorem dispatch_plain_thumbnail (fetchImg : String → Except FetchError Image)
    (fetchMagic : String → Except FetchError (String × Nat))
    (rescaleBase : ImgType → String) (tMagic tMagicFetch tCheck tFetch : Int)
    (url : String) (imgs : ImgMap) (magic : MagicMap) (fs : FS) :
    proxy_img fetchImg fetchMagic rescaleBase tMagic tMagicFetch tCheck tFetch
        "thumbnail" url imgs magic fs =
      (let r := proxy_img_resolved fetchImg rescaleBase tCheck tFetch
        ImgType.Thumbnail url REGULAR_CACHE_DURATION_SECONDS imgs fs
       ⟨r.res, r.imgs, magic, r.fs, r.imgFetches, [], r.diskReads,
         r.diskWrites, []⟩) := by
  rfl

theorem dispatch_plain_large (fetchImg : String → Except FetchError Image)
    (fetchMagic : String → Except FetchError (String × Nat))
    (rescaleBase : ImgType → String) (tMagic tMagicFetch tCheck tFetch : Int)
    (url : String) (imgs : ImgMap) (magic : MagicMap) (fs : FS) :
    proxy_img fetchImg fetchMagic rescaleBase tMagic tMagicFetch tCheck tFetch
        "large" url imgs magic fs =
      (let r := proxy_img_resolved fetchImg rescaleBase tCheck tFetch
        ImgType.Large url REGULAR_CACHE_DURATION_SECONDS imgs fs
       ⟨r.res, r.imgs, magic, r.fs, r.imgFetches, [], r.diskReads,
         r.diskWrites, []⟩) := by
  rfl

theorem dispatch_magic_resolved (fetchImg : String → Except FetchError Image)
    (fetchMagic : String → Except FetchError (String × Nat))
    (rescaleBase : ImgType → String) (tMagic tMagicFetch tCheck tFetch : Int)
    (url : String) (imgs : ImgMap) (magic : MagicMap) (fs : FS)
    (tu : String × String) (ty : ImgType) (rs : String × Nat)
    (hsplit : splitOnce '/' url = some tu)
    (hty : (tu.1 = "thumbnail" ∧ ty = ImgType.Thumbnail) ∨
      (tu.1 = "large" ∧ ty = ImgType.Large))
    (hres : (resolve_magic_url fetchMagic tMagic tMagicFetch tu.2 magic).res =
      .ok rs) :
    proxy_img fetchImg fetchMagic rescaleBase tMagic tMagicFetch tCheck tFetch
        "magic" url imgs magic fs =
      (let m := resolve_magic_url fetchMagic tMagic tMagicFetch tu.2 magic
       let r := proxy_img_resolved fetchImg rescaleBase tCheck tFetch ty rs.1
         (if rs.2 = 200 then MAGIC_CACHE_DURATION_SECONDS else 0) imgs fs
       ⟨r.res, r.imgs, m.magic, r.fs, r.imgFetches, m.magicFetches,
         r.diskReads, r.diskWrites, m.spawns⟩) := by
  unfold proxy_img
  rcases hty with ⟨h1, h2⟩ | ⟨h1, h2⟩ <;>
    simp only [show (("magic" : String) == "magic") = true from rfl, if_true,
      hsplit, h1, h2, hres] <;> rfl

theorem dispatch_magic_err (fetchImg : String → Except FetchError Image)
    (fetchMagic : String → Except FetchError (String × Nat))
    (rescaleBase : ImgType → String) (tMagic tMagicFetch tCheck tFetch : Int)
    (url : String) (imgs : ImgMap) (magic : MagicMap) (fs : FS)
    (tu : String × String) (ty : ImgType) (e : FetchError)
    (hsplit : splitOnce '/' url = some tu)
    (hty : (tu.1 = "thumbnail" ∧ ty = ImgType.Thumbnail) ∨
      (tu.1 = "large" ∧ ty = ImgType.Large))
    (hres : (resolve_magic_url fetchMagic tMagic tMagicFetch tu.2 magic).res =
      .error e) :
    proxy_img fetchImg fetchMagic rescaleBase tMagic tMagicFetch tCheck tFetch
        "magic" url imgs magic fs =
      (let m := resolve_magic_url fetchMagic tMagic tMagicFetch tu.2 magic
       ⟨.error e, imgs, m.magic, fs, [], m.magicFetches, [], [], m.spawns⟩) := by
  unfold proxy_img
  rcases hty with ⟨h1, h2⟩ | ⟨h1, h2⟩ <;>
    simp only [show (("magic" : String) == "magic") = true from rfl, if_true,
      hsplit, h1, h2, hres] <;> rfl

/-- Every successful result of the resolved stage carries exactly the cache
duration that stage was given. -/
theorem resolved_res_duration (fetchImg : String → Except FetchError Image)
    (rescaleBase : ImgType → String) (nowCheck nowFetch : Int) (ty : ImgType)
    (url : String) (dur : Int) (imgs : ImgMap) (fs : FS)
    (iwcd : ImageWithCacheDuration)
    (h : (proxy_img_resolved fetchImg rescaleBase nowCheck nowFetch ty url dur
      imgs fs).res = .ok iwcd) :
    iwcd.cache_duration_seconds = dur := by
  simp only [proxy_img_resolved] at h
  repeat' split at h
  all_goals simp_all
  all_goals subst h; rfl

/-! ## Theorems for the frozen claims -/

/-- Appending a strictly later timestamp keeps an attempts list strictly
increasing. -/
theorem chain'_append_lt (l : List Int) (t : Int)
    (hc : List.Chain' (· < ·) l) (ht : ∀ x ∈ l, x < t) :
    List.Chain' (· < ·) (l ++ [t]) := by
  refine hc.append (List.chain'_singleton t) ?_
  intro x hx y hy
  have hym : t = y := by simpa using hy
  obtain ⟨hne, hxl⟩ := List.mem_getLast?_eq_getLast hx
  rw [← hym]
  exact ht x (hxl ▸ List.getLast_mem hne)

/-- C1 counterexample.  With 65 recorded failed attempts, one second after the
most recent attempt — well inside the claimed `min(MAX_BACKOFF, 2^(n-1))`
window, which the cap makes 3600 seconds — the code does contact upstream:
`2u64.pow(64)` wraps to `0`, so the computed timeout is zero, refuting the
claim's formula. -/
theorem c1_counterexample :
    (let A : List Int := (List.range 65).map fun i => (i : Int) * 1000000000
     let imgs0 : ImgMap := mapInsert (fun _ => none) (ImgType.Thumbnail, "u")
       (.Failed .RequestFailed A)
     let out := proxy_img_resolved (fun _ => .error .RequestFailed)
       (fun _ => "base") (65 * 1000000000) (65 * 1000000000) .Thumbnail "u"
       REGULAR_CACHE_DURATION_SECONDS imgs0 (fun _ => none)
     A.length = 65 ∧
       (65 : Int) * 1000000000 - A.getLast?.getD 0 <
         ((min MAX_REFRESH_TIMEOUT (2 ^ (A.length - 1)) : Nat) : Int) * NANOS ∧
       out.imgFetches ≠ []) := by
  decide

/-- C1 (amended).  For a `Failed` entry with a non-empty attempts list, if the
current time minus the most recent attempt timestamp is strictly below
`min(MAX_BACKOFF, 2^(n-1) mod 2^64)` seconds — the exponentiation being the
64-bit wrapping one actually computed, which agrees with the claimed
`min(MAX_BACKOFF, 2^(n-1))` for all `n ≤ 64` — the request returns the
memoized error without invoking the fetch oracle and leaves the cache, the
filesystem and every effect channel untouched; the magic resolver behaves
identically, and both caches use the same formula with the same cap. -/
theorem c1_backoff_suppression :
    (∀ (fetchImg : String → Except FetchError Image)
        (rescaleBase : ImgType → String) (nowCheck nowFetch : Int)
        (ty : ImgType) (url : String) (dur : Int) (imgs : ImgMap) (fs : FS)
        (err : FetchError) (attempts : List Int),
      strStartsWith url "data:image/" = false →
      imgs (ty, url) = some (.Failed err attempts) →
      attempts ≠ [] →
      nowCheck - attempts.getLast?.getD 0 < imgBackoffNanos attempts.length →
      proxy_img_resolved fetchImg rescaleBase nowCheck nowFetch ty url dur imgs fs =
        ⟨.error err, imgs, fs, [], [], []⟩) ∧
    (∀ (fetchMagic : String → Except FetchError (String × Nat))
        (now nowFetch : Int) (url : String) (magic : MagicMap)
        (err : FetchError) (attempts : List Int),
      magic url = some (.Failed err attempts) →
      attempts ≠ [] →
      now - attempts.getLast?.getD 0 < magicBackoffNanos attempts.length →
      resolve_magic_url fetchMagic now nowFetch url magic =
        ⟨.error err, magic, [], []⟩) ∧
    (∀ n, imgBackoffNanos n = magicBackoffNanos n) ∧
    (∀ n, 1 ≤ n → n ≤ 64 →
      imgBackoffNanos n =
        ((min MAX_REFRESH_TIMEOUT (2 ^ (n - 1)) : Nat) : Int) * NANOS) := by
  refine ⟨?_, ?_, fun n => rfl, ?_⟩
  · intro fetchImg rescaleBase nowCheck nowFetch ty url dur imgs fs err attempts
      hS hc _ hlt
    exact resolved_failed_suppressed fetchImg rescaleBase nowCheck nowFetch ty
      url dur imgs fs err attempts hS hc hlt
  · intro fetchMagic now nowFetch url magic err attempts hc _ hlt
    exact magic_failed_suppressed fetchMagic now nowFetch url magic err
      attempts hc hlt
  · intro n h1 h64
    simp only [imgBackoffNanos]
    have he : (n % 2 ^ 32 + (2 ^ 32 - 1)) % 2 ^ 32 = n - 1 := by omega
    rw [he]
    have hp : (2 : Nat) ^ (n - 1) < 2 ^ 64 :=
      Nat.pow_lt_pow_right (by norm_num) (by omega)
    rw [Nat.mod_eq_of_lt hp]

/-- Witness for C1 at a one-attempt entry, inside the one-second window, for
both caches. -/
theorem c1_witness :
    proxy_img_resolved (fun _ => .error .RequestFailed) (fun _ => "base") 0 0
        .Thumbnail "u" 5
        (mapInsert (fun _ => none) (ImgType.Thumbnail, "u")
          (.Failed .RequestFailed [0]))
        (fun _ => none) =
      ⟨.error .RequestFailed,
        mapInsert (fun _ => none) (ImgType.Thumbnail, "u")
          (.Failed .RequestFailed [0]),
        fun _ => none, [], [], []⟩ ∧
    resolve_magic_url (fun _ => .error .RequestFailed) 0 0 "mu"
        (mapInsert (fun _ => none) "mu" (.Failed .TextReadFailed [0])) =
      ⟨.error .TextReadFailed,
        mapInsert (fun _ => none) "mu" (.Failed .TextReadFailed [0]),
        [], []⟩ :=
  ⟨c1_backoff_suppression.1 _ _ 0 0 .Thumbnail "u" 5 _ _ .RequestFailed [0]
      (by decide) (by decide) (by decide) (by decide),
    c1_backoff_suppression.2.1 _ 0 0 "mu" _ .TextReadFailed [0]
      (by decide) (by decide) (by decide)⟩

/-- C2.  The image cache is consulted memory first, then disk, then upstream:
a memory `Success` entry is returned as-is with no disk access and no fetch;
on a memory miss a disk hit installs a `Success` entry for the key and is
returned with no fetch; and a fetch can only ever happen on a memory miss
with a disk miss, or on a `Failed` entry whose backoff window has elapsed. -/
theorem c2_cache_consultation_order :
    (∀ (fetchImg : String → Except FetchError Image)
        (rescaleBase : ImgType → String) (nowCheck nowFetch : Int)
        (ty : ImgType) (url : String) (dur : Int) (imgs : ImgMap) (fs : FS)
        (image : Image) (time : Int),
      strStartsWith url "data:image/" = false →
      imgs (ty, url) = some (.Success image time) →
      proxy_img_resolved fetchImg rescaleBase nowCheck nowFetch ty url dur imgs fs =
        ⟨.ok ⟨image, dur⟩, imgs, fs, [], [], []⟩) ∧
    (∀ (fetchImg : String → Except FetchError Image)
        (rescaleBase : ImgType → String) (nowCheck nowFetch : Int)
        (ty : ImgType) (url : String) (dur : Int) (imgs : ImgMap) (fs : FS)
        (saved : SavedImage),
      strStartsWith url "data:image/" = false →
      imgs (ty, url) = none →
      read_from_disk fs (ty, url) = some saved →
      saved.pair = (ty, url) →
      (proxy_img_resolved fetchImg rescaleBase nowCheck nowFetch ty url dur
          imgs fs).res = .ok ⟨saved.image, dur⟩ ∧
      (proxy_img_resolved fetchImg rescaleBase nowCheck nowFetch ty url dur
          imgs fs).imgs (ty, url) =
        some (.Success saved.image (reconstructTimeNanos saved.time_nanos)) ∧
      (proxy_img_resolved fetchImg rescaleBase nowCheck nowFetch ty url dur
          imgs fs).imgFetches = [] ∧
      (proxy_img_resolved fetchImg rescaleBase nowCheck nowFetch ty url dur
          imgs fs).fs = fs) ∧
    (∀ (fetchImg : String → Except FetchError Image)
        (rescaleBase : ImgType → String) (nowCheck nowFetch : Int)
        (ty : ImgType) (url : String) (dur : Int) (imgs : ImgMap) (fs : FS),
      (proxy_img_resolved fetchImg rescaleBase nowCheck nowFetch ty url dur
        imgs fs).imgFetches ≠ [] →
      strStartsWith url "data:image/" = false ∧
      ((imgs (ty, url) = none ∧ read_from_disk fs (ty, url) = none) ∨
        (∃ err attempts, imgs (ty, url) = some (.Failed err attempts) ∧
          imgBackoffNanos attempts.length ≤
            nowCheck - attempts.getLast?.getD 0))) := by
  refine ⟨?_, ?_, ?_⟩
  · intro fetchImg rescaleBase nowCheck nowFetch ty url dur imgs fs image time
      hS hc
    exact resolved_success_hit fetchImg rescaleBase nowCheck nowFetch ty url
      dur imgs fs image time hS hc
  · intro fetchImg rescaleBase nowCheck nowFetch ty url dur imgs fs saved hS
      hc hd hsp
    rw [resolved_miss_disk_hit fetchImg rescaleBase nowCheck nowFetch ty url
      dur imgs fs saved hS hc hd]
    refine ⟨rfl, ?_, rfl, rfl⟩
    rw [hsp]
    exact mapInsert_self imgs _ _
  · intro fetchImg rescaleBase nowCheck nowFetch ty url dur imgs fs h
    cases hS : strStartsWith url "data:image/" with
    | true =>
        exfalso
        rcases hsplit : splitOnce ',' (strDrop url 5) with _ | pp
        · rw [resolved_data_no_comma fetchImg rescaleBase nowCheck nowFetch ty
            url dur imgs fs hS hsplit] at h
          exact h rfl
        · rcases hb64 : base64Decode pp.2 with _ | body
          · rw [resolved_data_bad_base64 fetchImg rescaleBase nowCheck nowFetch
              ty url dur imgs fs pp hS hsplit hb64] at h
            exact h rfl
          · rw [resolved_data_ok fetchImg rescaleBase nowCheck nowFetch ty url
              dur imgs fs pp body hS hsplit hb64] at h
            exact h rfl
    | false =>
        refine ⟨rfl, ?_⟩
        rcases hc : imgs (ty, url) with _ | entry
        · rcases hd : read_from_disk fs (ty, url) with _ | saved
          · exact Or.inl ⟨rfl, rfl⟩
          · rw [resolved_miss_disk_hit fetchImg rescaleBase nowCheck nowFetch
              ty url dur imgs fs saved hS hc hd] at h
            exact absurd rfl h
        · cases entry with
          | Success image time =>
              rw [resolved_success_hit fetchImg rescaleBase nowCheck nowFetch
                ty url dur imgs fs image time hS hc] at h
              exact absurd rfl h
          | Failed err attempts =>
              by_cases hlt : nowCheck - attempts.getLast?.getD 0 <
                  imgBackoffNanos attempts.length
              · rw [resolved_failed_suppressed fetchImg rescaleBase nowCheck
                  nowFetch ty url dur imgs fs err attempts hS hc hlt] at h
                exact absurd rfl h
              · exact Or.inr ⟨err, attempts, rfl, by omega⟩

/-- Witness for C2 at a memory `Success` hit. -/
theorem c2_witness :
    proxy_img_resolved (fun _ => .error .RequestFailed) (fun _ => "base") 0 0
        .Thumbnail "u" 7
        (mapInsert (fun _ => none) (ImgType.Thumbnail, "u")
          (.Success ⟨"image/png", [9]⟩ 3))
        (fun _ => none) =
      ⟨.ok ⟨⟨"image/png", [9]⟩, 7⟩,
        mapInsert (fun _ => none) (ImgType.Thumbnail, "u")
          (.Success ⟨"image/png", [9]⟩ 3),
        fun _ => none, [], [], []⟩ :=
  c2_cache_consultation_order.1 _ _ 0 0 .Thumbnail "u" 7 _ _ ⟨"image/png", [9]⟩
    3 (by decide) (by decide)

/-- C3.  On a failed fresh attempt the installed `Failed` entry's attempts
list is exactly the carried-forward list with the fetch-time timestamp
appended (so it grows by one, and stays strictly increasing whenever the
carried list was strictly increasing and the new timestamp is later); a fresh
attempt from a miss that fails installs a single-element list; a successful
fetch installs a `Success` entry, which carries no attempts history.  The
magic cache behaves the same through `magic_fetch_and_cache`. -/
theorem c3_attempts_growth :
    (∀ (fetchImg : String → Except FetchError Image)
        (rescaleBase : ImgType → String) (nowCheck nowFetch : Int)
        (ty : ImgType) (url : String) (dur : Int) (imgs : ImgMap) (fs : FS)
        (err e : FetchError) (attempts : List Int),
      strStartsWith url "data:image/" = false →
      imgs (ty, url) = some (.Failed err attempts) →
      ¬ nowCheck - attempts.getLast?.getD 0 < imgBackoffNanos attempts.length →
      fetchImg (rescaleBase ty ++ "/" ++ url) = .error e →
      (proxy_img_resolved fetchImg rescaleBase nowCheck nowFetch ty url dur
          imgs fs).imgs (ty, url) = some (.Failed e (attempts ++ [nowFetch])) ∧
      (attempts ++ [nowFetch]).length = attempts.length + 1) ∧
    (∀ (fetchImg : String → Except FetchError Image)
        (rescaleBase : ImgType → String) (nowCheck nowFetch : Int)
        (ty : ImgType) (url : String) (dur : Int) (imgs : ImgMap) (fs : FS)
        (e : FetchError),
      strStartsWith url "data:image/" = false →
      imgs (ty, url) = none →
      read_from_disk fs (ty, url) = none →
      fetchImg (rescaleBase ty ++ "/" ++ url) = .error e →
      (proxy_img_resolved fetchImg rescaleBase nowCheck nowFetch ty url dur
          imgs fs).imgs (ty, url) = some (.Failed e [nowFetch])) ∧
    (∀ (fetchImg : String → Except FetchError Image)
        (rescaleBase : ImgType → String) (nowCheck nowFetch : Int)
        (ty : ImgType) (url : String) (dur : Int) (imgs : ImgMap) (fs : FS)
        (err : FetchError) (attempts : List Int) (image : Image),
      strStartsWith url "data:image/" = false →
      imgs (ty, url) = some (.Failed err attempts) →
      ¬ nowCheck - attempts.getLast?.getD 0 < imgBackoffNanos attempts.length →
      fetchImg (rescaleBase ty ++ "/" ++ url) = .ok image →
      (proxy_img_resolved fetchImg rescaleBase nowCheck nowFetch ty url dur
          imgs fs).imgs (ty, url) =
        some (.Success image (reconstructTimeNanos nowFetch))) ∧
    (∀ (fetchMagic : String → Except FetchError (String × Nat)) (now : Int)
        (url : String) (magic : MagicMap) (attempts : List Int) (e : FetchError),
      fetchMagic url = .error e →
      (magic_fetch_and_cache fetchMagic now url magic attempts).magic url =
        some (.Failed e (attempts ++ [now]))) ∧
    (∀ (fetchMagic : String → Except FetchError (String × Nat)) (now : Int)
        (url : String) (magic : MagicMap) (attempts : List Int)
        (ms : String × Nat),
      fetchMagic url = .ok ms →
      (magic_fetch_and_cache fetchMagic now url magic attempts).magic url =
        some (.Success ms.1 ms.2 now)) ∧
    (∀ (attempts : List Int) (t : Int), List.Chain' (· < ·) attempts →
      (∀ x ∈ attempts, x < t) → List.Chain' (· < ·) (attempts ++ [t])) := by
  refine ⟨?_, ?_, ?_, ?_, ?_, chain'_append_lt⟩
  · intro fetchImg rescaleBase nowCheck nowFetch ty url dur imgs fs err e
      attempts hS hc hge hf
    rw [resolved_failed_expired_err fetchImg rescaleBase nowCheck nowFetch ty
      url dur imgs fs err e attempts hS hc hge hf]
    exact ⟨mapInsert_self imgs _ _, by simp⟩
  · intro fetchImg rescaleBase nowCheck nowFetch ty url dur imgs fs e hS hc
      hd hf
    rw [resolved_miss_disk_miss_err fetchImg rescaleBase nowCheck nowFetch ty
      url dur imgs fs e hS hc hd hf]
    exact mapInsert_self imgs _ _
  · intro fetchImg rescaleBase nowCheck nowFetch ty url dur imgs fs err
      attempts image hS hc hge hf
    rw [resolved_failed_expired_ok fetchImg rescaleBase nowCheck nowFetch ty
      url dur imgs fs err attempts image hS hc hge hf]
    exact mapInsert_self imgs _ _
  · intro fetchMagic now url magic attempts e hf
    rw [mfac_err fetchMagic now url magic attempts e hf]
    exact mapInsert_self magic _ _
  · intro fetchMagic now url magic attempts ms hf
    rw [mfac_ok fetchMagic now url magic attempts ms hf]
    exact mapInsert_self magic _ _

/-- Witness for C3: a fresh miss that fails installs a single-attempt entry. -/
theorem c3_witness :
    (proxy_img_resolved (fun _ => .error .RequestFailed) (fun _ => "base") 0 4
        .Thumbnail "u" 5 (fun _ => none) (fun _ => none)).imgs
      (ImgType.Thumbnail, "u") = some (.Failed .RequestFailed [4]) :=
  c3_attempts_growth.2.1 _ _ 0 4 .Thumbnail "u" 5 (fun _ => none)
    (fun _ => none) .RequestFailed (by decide) (by decide) (by decide)
    (by decide)

/-- C4.  When a request succeeds, the cache duration it carries is the
regular (long) duration for a non-magic request, and for a magic request it
is the full magic TTL exactly when the resolved status code is 200 and zero
for any other resolved status. -/
theorem c4_cache_duration :
    (∀ (fetchImg : String → Except FetchError Image)
        (fetchMagic : String → Except FetchError (String × Nat))
        (rescaleBase : ImgType → String)
        (tMagic tMagicFetch tCheck tFetch : Int) (ts url : String)
        (imgs : ImgMap) (magic : MagicMap) (fs : FS)
        (iwcd : ImageWithCacheDuration),
      (ts = "thumbnail" ∨ ts = "large") →
      (proxy_img fetchImg fetchMagic rescaleBase tMagic tMagicFetch tCheck
        tFetch ts url imgs magic fs).res = .ok iwcd →
      iwcd.cache_duration_seconds = REGULAR_CACHE_DURATION_SECONDS) ∧
    (∀ (fetchImg : String → Except FetchError Image)
        (fetchMagic : String → Except FetchError (String × Nat))
        (rescaleBase : ImgType → String)
        (tMagic tMagicFetch tCheck tFetch : Int) (url : String)
        (imgs : ImgMap) (magic : MagicMap) (fs : FS) (tu : String × String)
        (ty : ImgType) (rs : String × Nat) (iwcd : ImageWithCacheDuration),
      splitOnce '/' url = some tu →
      ((tu.1 = "thumbnail" ∧ ty = ImgType.Thumbnail) ∨
        (tu.1 = "large" ∧ ty = ImgType.Large)) →
      (resolve_magic_url fetchMagic tMagic tMagicFetch tu.2 magic).res = .ok rs →
      (proxy_img fetchImg fetchMagic rescaleBase tMagic tMagicFetch tCheck
        tFetch "magic" url imgs magic fs).res = .ok iwcd →
      iwcd.cache_duration_seconds =
        (if rs.2 = 200 then MAGIC_CACHE_DURATION_SECONDS else 0)) := by
  constructor
  · intro fetchImg fetchMagic rescaleBase tMagic tMagicFetch tCheck tFetch ts
      url imgs magic fs iwcd hts hres
    rcases hts with rfl | rfl
    · rw [dispatch_plain_thumbnail] at hres
      exact resolved_res_duration _ _ tCheck tFetch _ url _ imgs fs iwcd hres
    · rw [dispatch_plain_large] at hres
      exact resolved_res_duration _ _ tCheck tFetch _ url _ imgs fs iwcd hres
  · intro fetchImg fetchMagic rescaleBase tMagic tMagicFetch tCheck tFetch url
      imgs magic fs tu ty rs iwcd hsplit hty hok hres
    rw [dispatch_magic_resolved fetchImg fetchMagic rescaleBase tMagic
      tMagicFetch tCheck tFetch url imgs magic fs tu ty rs hsplit hty hok]
      at hres
    exact resolved_res_duration _ _ tCheck tFetch _ _ _ imgs fs iwcd hres

/-- Witness for C4: a cached non-magic success carries the regular duration. -/
theorem c4_witness :
    (⟨⟨"image/png", [9]⟩, REGULAR_CACHE_DURATION_SECONDS⟩ :
        ImageWithCacheDuration).cache_duration_seconds =
      REGULAR_CACHE_DURATION_SECONDS :=
  c4_cache_duration.1 (fun _ => .error .RequestFailed)
    (fun _ => .error .RequestFailed) (fun _ => "base") 0 0 0 0 "thumbnail" "u"
    (mapInsert (fun _ => none) (ImgType.Thumbnail, "u")
      (.Success ⟨"image/png", [9]⟩ 3))
    (fun _ => none) (fun _ => none)
    ⟨⟨"image/png", [9]⟩, REGULAR_CACHE_DURATION_SECONDS⟩ (Or.inl rfl)
    (by decide)

/-- C5.  A purge request — the purge keyword directly, or under the magic
marker — always yields the `Purge` sentinel, removes the magic cache entry for
the given URL (whatever state it was in, present or absent), leaves every
other magic entry, the whole image cache and the filesystem untouched, and
performs no fetch of either kind, no disk access and no background spawn. -/
theorem c5_purge :
    (∀ (fetchImg : String → Except FetchError Image)
        (fetchMagic : String → Except FetchError (String × Nat))
        (rescaleBase : ImgType → String)
        (tMagic tMagicFetch tCheck tFetch : Int) (url : String)
        (imgs : ImgMap) (magic : MagicMap) (fs : FS),
      (proxy_img fetchImg fetchMagic rescaleBase tMagic tMagicFetch tCheck
          tFetch "purge" url imgs magic fs) =
        ⟨.error .Purge, imgs, mapRemove magic url, fs, [], [], [], [], []⟩ ∧
      mapRemove magic url url = none ∧
      (∀ v, v ≠ url → mapRemove magic url v = magic v)) ∧
    (∀ (fetchImg : String → Except FetchError Image)
        (fetchMagic : String → Except FetchError (String × Nat))
        (rescaleBase : ImgType → String)
        (tMagic tMagicFetch tCheck tFetch : Int) (url : String)
        (imgs : ImgMap) (magic : MagicMap) (fs : FS) (pu : String × String),
      splitOnce '/' url = some pu → pu.1 = "purge" →
      (proxy_img fetchImg fetchMagic rescaleBase tMagic tMagicFetch tCheck
          tFetch "magic" url imgs magic fs) =
        ⟨.error .Purge, imgs, mapRemove magic pu.2, fs, [], [], [], [], []⟩ ∧
      mapRemove magic pu.2 pu.2 = none ∧
      (∀ v, v ≠ pu.2 → mapRemove magic pu.2 v = magic v)) := by
  constructor
  · intro fetchImg fetchMagic rescaleBase tMagic tMagicFetch tCheck tFetch url
      imgs magic fs
    refine ⟨dispatch_purge_plain _ _ _ _ _ _ _ _ _ _ _, by simp [mapRemove],
      fun v hv => by simp [mapRemove, hv]⟩
  · intro fetchImg fetchMagic rescaleBase tMagic tMagicFetch tCheck tFetch url
      imgs magic fs pu hsplit hp
    refine ⟨dispatch_purge_magic _ _ _ _ _ _ _ url imgs magic fs pu hsplit hp,
      by simp [mapRemove], fun v hv => by simp [mapRemove, hv]⟩

/-- Witness for C5 at a magic-marked purge of a cached entry. -/
theorem c5_witness :
    proxy_img (fun _ => .error .RequestFailed) (fun _ => .error .RequestFailed)
        (fun _ => "base") 0 0 0 0 "magic" "purge/mu" (fun _ => none)
        (mapInsert (fun _ => none) "mu" (.Success "ru" 200 0)) (fun _ => none) =
      ⟨.error .Purge, fun _ => none,
        mapRemove (mapInsert (fun _ => none) "mu" (.Success "ru" 200 0)) "mu",
        fun _ => none, [], [], [], [], []⟩ :=
  (c5_purge.2 (fun _ => .error .RequestFailed) (fun _ => .error .RequestFailed)
    (fun _ => "base") 0 0 0 0 "purge/mu" (fun _ => none)
    (mapInsert (fun _ => none) "mu" (.Success "ru" 200 0)) (fun _ => none)
    ("purge", "mu") (by decide) (by decide)).1

/-- C8.  After magic resolution, a URL carrying the inline-image-data scheme
prefix is answered entirely from the URL itself: the content type is the
segment after the scheme marker cut at the first semicolon (or comma), the
body is the base64 decoding of the segment after the first comma, a missing
comma or an undecodable payload yields `InvalidDataUrl`, and in every one of
these cases the image cache, the magic cache and the content store are
neither read nor written and no upstream call of either kind occurs. -/
theorem c8_data_url :
    (∀ (fetchImg : String → Except FetchError Image)
        (rescaleBase : ImgType → String) (nowCheck nowFetch : Int)
        (ty : ImgType) (url : String) (dur : Int) (imgs : ImgMap) (fs : FS),
      strStartsWith url "data:image/" = true →
      (proxy_img_resolved fetchImg rescaleBase nowCheck nowFetch ty url dur
          imgs fs).imgs = imgs ∧
      (proxy_img_resolved fetchImg rescaleBase nowCheck nowFetch ty url dur
          imgs fs).fs = fs ∧
      (proxy_img_resolved fetchImg rescaleBase nowCheck nowFetch ty url dur
          imgs fs).imgFetches = [] ∧
      (proxy_img_resolved fetchImg rescaleBase nowCheck nowFetch ty url dur
          imgs fs).diskReads = [] ∧
      (proxy_img_resolved fetchImg rescaleBase nowCheck nowFetch ty url dur
          imgs fs).diskWrites = []) ∧
    (∀ (fetchImg : String → Except FetchError Image)
        (rescaleBase : ImgType → String) (nowCheck nowFetch : Int)
        (ty : ImgType) (url : String) (dur : Int) (imgs : ImgMap) (fs : FS),
      strStartsWith url "data:image/" = true →
      splitOnce ',' (strDrop url 5) = none →
      (proxy_img_resolved fetchImg rescaleBase nowCheck nowFetch ty url dur
          imgs fs).res = .error .InvalidDataUrl) ∧
    (∀ (fetchImg : String → Except FetchError Image)
        (rescaleBase : ImgType → String) (nowCheck nowFetch : Int)
        (ty : ImgType) (url : String) (dur : Int) (imgs : ImgMap) (fs : FS)
        (pp : String × String),
      strStartsWith url "data:image/" = true →
      splitOnce ',' (strDrop url 5) = some pp →
      base64Decode pp.2 = none →
      (proxy_img_resolved fetchImg rescaleBase nowCheck nowFetch ty url dur
          imgs fs).res = .error .InvalidDataUrl) ∧
    (∀ (fetchImg : String → Except FetchError Image)
        (rescaleBase : ImgType → String) (nowCheck nowFetch : Int)
        (ty : ImgType) (url : String) (dur : Int) (imgs : ImgMap) (fs : FS)
        (pp : String × String) (body : List Nat),
      strStartsWith url "data:image/" = true →
      splitOnce ',' (strDrop url 5) = some pp →
      base64Decode pp.2 = some body →
      (proxy_img_resolved fetchImg rescaleBase nowCheck nowFetch ty url dur
          imgs fs).res =
        .ok ⟨⟨((splitOnce ';' pp.1).map Prod.fst).getD pp.1, body⟩, dur⟩) ∧
    (∀ (fetchImg : String → Except FetchError Image)
        (fetchMagic : String → Except FetchError (String × Nat))
        (rescaleBase : ImgType → String)
        (tMagic tMagicFetch tCheck tFetch : Int) (ts url : String)
        (imgs : ImgMap) (magic : MagicMap) (fs : FS),
      (ts = "thumbnail" ∨ ts = "large") →
      strStartsWith url "data:image/" = true →
      (proxy_img fetchImg fetchMagic rescaleBase tMagic tMagicFetch tCheck
          tFetch ts url imgs magic fs).magic = magic ∧
      (proxy_img fetchImg fetchMagic rescaleBase tMagic tMagicFetch tCheck
          tFetch ts url imgs magic fs).magicFetches = [] ∧
      (proxy_img fetchImg fetchMagic rescaleBase tMagic tMagicFetch tCheck
          tFetch ts url imgs magic fs).spawns = [] ∧
      (proxy_img fetchImg fetchMagic rescaleBase tMagic tMagicFetch tCheck
          tFetch ts url imgs magic fs).imgs = imgs ∧
      (proxy_img fetchImg fetchMagic rescaleBase tMagic tMagicFetch tCheck
          tFetch ts url imgs magic fs).fs = fs ∧
      (proxy_img fetchImg fetchMagic rescaleBase tMagic tMagicFetch tCheck
          tFetch ts url imgs magic fs).imgFetches = []) := by
  have heff : ∀ (fetchImg : String → Except FetchError Image)
      (rescaleBase : ImgType → String) (nowCheck nowFetch : Int)
      (ty : ImgType) (url : String) (dur : Int) (imgs : ImgMap) (fs : FS),
      strStartsWith url "data:image/" = true →
      ∃ r : Except FetchError ImageWithCacheDuration,
        proxy_img_resolved fetchImg rescaleBase nowCheck nowFetch ty url dur
          imgs fs = ⟨r, imgs, fs, [], [], []⟩ := by
    intro fetchImg rescaleBase nowCheck nowFetch ty url dur imgs fs hS
    rcases hsplit : splitOnce ',' (strDrop url 5) with _ | pp
    · exact ⟨_, resolved_data_no_comma fetchImg rescaleBase nowCheck nowFetch
        ty url dur imgs fs hS hsplit⟩
    · rcases hb64 : base64Decode pp.2 with _ | body
      · exact ⟨_, resolved_data_bad_base64 fetchImg rescaleBase nowCheck
          nowFetch ty url dur imgs fs pp hS hsplit hb64⟩
      · exact ⟨_, resolved_data_ok fetchImg rescaleBase nowCheck nowFetch ty
          url dur imgs fs pp body hS hsplit hb64⟩
  refine ⟨?_, ?_, ?_, ?_, ?_⟩
  · intro fetchImg rescaleBase nowCheck nowFetch ty url dur imgs fs hS
    obtain ⟨r, hr⟩ := heff fetchImg rescaleBase nowCheck nowFetch ty url dur
      imgs fs hS
    rw [hr]
    exact ⟨rfl, rfl, rfl, rfl, rfl⟩
  · intro fetchImg rescaleBase nowCheck nowFetch ty url dur imgs fs hS hsplit
    rw [resolved_data_no_comma fetchImg rescaleBase nowCheck nowFetch ty url
      dur imgs fs hS hsplit]
  · intro fetchImg rescaleBase nowCheck nowFetch ty url dur imgs fs pp hS
      hsplit hb64
    rw [resolved_data_bad_base64 fetchImg rescaleBase nowCheck nowFetch ty url
      dur imgs fs pp hS hsplit hb64]
  · intro fetchImg rescaleBase nowCheck nowFetch ty url dur imgs fs pp body hS
      hsplit hb64
    rw [resolved_data_ok fetchImg rescaleBase nowCheck nowFetch ty url dur
      imgs fs pp body hS hsplit hb64]
  · intro fetchImg fetchMagic rescaleBase tMagic tMagicFetch tCheck tFetch ts
      url imgs magic fs hts hS
    rcases hts with rfl | rfl
    · obtain ⟨r, hr⟩ := heff fetchImg rescaleBase tCheck tFetch
        ImgType.Thumbnail url REGULAR_CACHE_DURATION_SECONDS imgs fs hS
      rw [dispatch_plain_thumbnail]
      simp [hr]
    · obtain ⟨r, hr⟩ := heff fetchImg rescaleBase tCheck tFetch
        ImgType.Large url REGULAR_CACHE_DURATION_SECONDS imgs fs hS
      rw [dispatch_plain_large]
      simp [hr]

/-- Witness for C8 at a well-formed PNG data URI. -/
theorem c8_witness :
    (proxy_img_resolved (fun _ => .error .RequestFailed) (fun _ => "base") 0 0
        .Thumbnail "data:image/png;base64,aGk=" 7 (fun _ => none)
        (fun _ => none)).res =
      .ok ⟨⟨"image/png", [104, 105]⟩, 7⟩ := by
  have h := c8_data_url.2.2.2.1 (fun _ => .error .RequestFailed)
    (fun _ => "base") 0 0 .Thumbnail "data:image/png;base64,aGk=" 7
    (fun _ => none) (fun _ => none) ("image/png;base64", "aGk=")
    [104, 105] (by decide) (by decide) (by decide)
  rw [h]
  decide

/-- C6.  Writing the `SavedImage` envelope and loading it back from the same
key's path returns exactly the envelope that was written (same key, same
image content type and bytes, same nanosecond timestamp), provided the
encoded lengths fit borsh's `u32` length prefixes and the timestamp fits an
`i64`; and loading returns `none`, rather than raising, whenever the file is
absent or its contents fail to deserialize. -/
theorem c6_disk_round_trip :
    (∀ (fs : FS) (pair : ImgPair) (image : Image) (tn : Int),
      (strBytes pair.2).length < 2 ^ 32 →
      (strBytes image.content_type).length < 2 ^ 32 →
      image.body.length < 2 ^ 32 →
      -(2 ^ 63) ≤ tn → tn < 2 ^ 63 →
      read_from_disk (write_to_disk fs pair image tn).1 pair =
          some ⟨pair, image, tn⟩ ∧
        (write_to_disk fs pair image tn).2 = ⟨pair, image, tn⟩) ∧
    (∀ (fs : FS) (pair : ImgPair), fs (pair_to_path pair).2 = none →
      read_from_disk fs pair = none) ∧
    (∀ (fs : FS) (pair : ImgPair) (buf : List Nat),
      fs (pair_to_path pair).2 = some buf → parseSavedImage buf = none →
      read_from_disk fs pair = none) := by
  refine ⟨?_, ?_, ?_⟩
  · intro fs pair image tn hu hc hb ht1 ht2
    constructor
    · unfold write_to_disk read_from_disk
      simp only [mapInsert_self]
      exact parseSavedImage_borshSavedImage ⟨pair, image, tn⟩ hu hc hb ht1 ht2
    · rfl
  · intro fs pair h
    unfold read_from_disk
    rw [h]
  · intro fs pair buf h hp
    unfold read_from_disk
    rw [h]
    exact hp

/-- Witness for C6 at a concrete envelope. -/
theorem c6_witness :
    read_from_disk
        (write_to_disk (fun _ => none) (ImgType.Thumbnail, "u")
          ⟨"image/png", [1, 2, 3]⟩ 5).1 (ImgType.Thumbnail, "u") =
      some ⟨(ImgType.Thumbnail, "u"), ⟨"image/png", [1, 2, 3]⟩, 5⟩ :=
  ((c6_disk_round_trip.1 (fun _ => none) (ImgType.Thumbnail, "u")
    ⟨"image/png", [1, 2, 3]⟩ 5 (by decide) (by decide) (by decide)
    (by decide) (by decide)).1)

/-- C7.  The content-store path function is deterministic — equal
(`RescaleType`, URL) pairs yield equal paths — the path is built from the
hex-encoded SHA-256 of the URL split as a 3-character shard, a second
3-character shard and the remaining hex characters as filename, under a
directory segment naming the `RescaleType`; and the same URL under the two
distinct rescale types yields two distinct paths. -/
theorem c7_path_deterministic :
    (∀ p q : ImgPair, p = q → pair_to_path p = pair_to_path q) ∧
    (∀ (u : String) (t1 t2 : ImgType), t1 ≠ t2 →
      (pair_to_path (t1, u)).2 ≠ (pair_to_path (t2, u)).2) ∧
    (∀ p : ImgPair,
      (pair_to_path p).1 =
        "cache/" ++ p.1.debugStr ++ "/" ++
          (⟨((hexEncode (sha256 (strBytes p.2))).data.take 3 : List Char)⟩ : String) ++
          "/" ++
          (⟨(((hexEncode (sha256 (strBytes p.2))).data.drop 3).take 3 : List Char)⟩ : String) ∧
      (pair_to_path p).2 =
        (pair_to_path p).1 ++ "/" ++
          (⟨((((hexEncode (sha256 (strBytes p.2))).data.drop 3).drop 3 : List Char))⟩ : String)) := by
  exact ⟨fun p q h => by rw [h],
    fun u t1 t2 h => path_ne_of_type_ne u t1 t2 h,
    fun p => ⟨rfl, rfl⟩⟩

/-- Witness for C7: the two concrete rescale types map the same URL to
different paths. -/
theorem c7_witness :
    (pair_to_path (ImgType.Thumbnail, "u")).2 ≠ (pair_to_path (ImgType.Large, "u")).2 :=
  c7_path_deterministic.2.1 "u" ImgType.Thumbnail ImgType.Large (by decide)

/-! ## Invariant preservation (support for C9) -/

theorem mapRemove_preserves_magic_inv (magic : MagicMap) (k : String)
    (hm : MagicCacheInv magic) : MagicCacheInv (mapRemove magic k) := by
  intro u err a h
  unfold mapRemove at h
  by_cases hu : u = k
  · rw [if_pos hu] at h
    cases h
  · rw [if_neg hu] at h
    exact hm u err a h

theorem mfac_preserves_magic_inv
    (fetchMagic : String → Except FetchError (String × Nat)) (now : Int)
    (url : String) (magic : MagicMap) (attempts : List Int)
    (hm : MagicCacheInv magic) :
    MagicCacheInv (magic_fetch_and_cache fetchMagic now url magic attempts).magic := by
  rcases hf : fetchMagic url with e | ms
  · rw [mfac_err fetchMagic now url magic attempts e hf]
    intro u err a h
    dsimp only [mapInsert] at h
    by_cases hu : u = url
    · rw [if_pos hu] at h
      injection h with h
      injection h with _ h2
      rw [← h2]
      simp
    · rw [if_neg hu] at h
      exact hm u err a h
  · rw [mfac_ok fetchMagic now url magic attempts ms hf]
    intro u err a h
    dsimp only [mapInsert] at h
    by_cases hu : u = url
    · rw [if_pos hu] at h
      injection h with h
      cases h
    · rw [if_neg hu] at h
      exact hm u err a h

theorem resolve_preserves_magic_inv
    (fetchMagic : String → Except FetchError (String × Nat))
    (now nowFetch : Int) (url : String) (magic : MagicMap)
    (hm : MagicCacheInv magic) :
    MagicCacheInv (resolve_magic_url fetchMagic now nowFetch url magic).magic := by
  rcases hc : magic url with _ | entry
  · rw [magic_miss fetchMagic now nowFetch url magic hc]
    exact mfac_preserves_magic_inv fetchMagic nowFetch url magic [] hm
  · cases entry with
    | Failed err attempts =>
        by_cases hlt : now - attempts.getLast?.getD 0 <
            magicBackoffNanos attempts.length
        · rw [magic_failed_suppressed fetchMagic now nowFetch url magic err
            attempts hc hlt]
          exact hm
        · rw [magic_failed_expired fetchMagic now nowFetch url magic err
            attempts hc hlt]
          exact mfac_preserves_magic_inv fetchMagic nowFetch url magic
            attempts hm
    | Success murl status time =>
        by_cases hstale : now - time > MAGIC_CACHE_DURATION_SECONDS * NANOS
        · rw [magic_success_stale fetchMagic now nowFetch url magic murl
            status time hc hstale]
          exact hm
        · rw [magic_success_fresh fetchMagic now nowFetch url magic murl
            status time hc hstale]
          exact hm

theorem insert_success_preserves_img_inv (imgs : ImgMap) (p : ImgPair)
    (image : Image) (time : Int) (hi : ImgCacheInv imgs) :
    ImgCacheInv (mapInsert imgs p (.Success image time)) := by
  intro q err a h
  unfold mapInsert at h
  by_cases hq : q = p
  · rw [if_pos hq] at h
    injection h with h
    cases h
  · rw [if_neg hq] at h
    exact hi q err a h

theorem insert_failed_preserves_img_inv (imgs : ImgMap) (p : ImgPair)
    (err : FetchError) (attempts : List Int) (t : Int) (hi : ImgCacheInv imgs) :
    ImgCacheInv (mapInsert imgs p (.Failed err (attempts ++ [t]))) := by
  intro q err2 a h
  unfold mapInsert at h
  by_cases hq : q = p
  · rw [if_pos hq] at h
    injection h with h
    injection h with _ h2
    rw [← h2]
    simp
  · rw [if_neg hq] at h
    exact hi q err2 a h

theorem resolved_preserves_img_inv (fetchImg : String → Except FetchError Image)
    (rescaleBase : ImgType → String) (nowCheck nowFetch : Int) (ty : ImgType)
    (url : String) (dur : Int) (imgs : ImgMap) (fs : FS)
    (hi : ImgCacheInv imgs) :
    ImgCacheInv (proxy_img_resolved fetchImg rescaleBase nowCheck nowFetch ty
      url dur imgs fs).imgs := by
  cases hS : strStartsWith url "data:image/" with
  | true =>
      rcases hsplit : splitOnce ',' (strDrop url 5) with _ | pp
      · rw [resolved_data_no_comma fetchImg rescaleBase nowCheck nowFetch ty
          url dur imgs fs hS hsplit]
        exact hi
      · rcases hb64 : base64Decode pp.2 with _ | body
        · rw [resolved_data_bad_base64 fetchImg rescaleBase nowCheck nowFetch
            ty url dur imgs fs pp hS hsplit hb64]
          exact hi
        · rw [resolved_data_ok fetchImg rescaleBase nowCheck nowFetch ty url
            dur imgs fs pp body hS hsplit hb64]
          exact hi
  | false =>
      rcases hc : imgs (ty, url) with _ | entry
      · rcases hd : read_from_disk fs (ty, url) with _ | saved
        · rcases hf : fetchImg (rescaleBase ty ++ "/" ++ url) with e | image
          · rw [resolved_miss_disk_miss_err fetchImg rescaleBase nowCheck
              nowFetch ty url dur imgs fs e hS hc hd hf]
            have := insert_failed_preserves_img_inv imgs (ty, url) e []
              nowFetch hi
            simpa using this
          · rw [resolved_miss_disk_miss_ok fetchImg rescaleBase nowCheck
              nowFetch ty url dur imgs fs image hS hc hd hf]
            exact insert_success_preserves_img_inv imgs (ty, url) image _ hi
        · rw [resolved_miss_disk_hit fetchImg rescaleBase nowCheck nowFetch ty
            url dur imgs fs saved hS hc hd]
          exact insert_success_preserves_img_inv imgs saved.pair saved.image _
            hi
      · cases entry with
        | Success image time =>
            rw [resolved_success_hit fetchImg rescaleBase nowCheck nowFetch ty
              url dur imgs fs image time hS hc]
            exact hi
        | Failed err attempts =>
            by_cases hlt : nowCheck - attempts.getLast?.getD 0 <
                imgBackoffNanos attempts.length
            · rw [resolved_failed_suppressed fetchImg rescaleBase nowCheck
                nowFetch ty url dur imgs fs err attempts hS hc hlt]
              exact hi
            · rcases hf : fetchImg (rescaleBase ty ++ "/" ++ url) with e | image
              · rw [resolved_failed_expired_err fetchImg rescaleBase nowCheck
                  nowFetch ty url dur imgs fs err e attempts hS hc hlt hf]
                exact insert_failed_preserves_img_inv imgs (ty, url) e
                  attempts nowFetch hi
              · rw [resolved_failed_expired_ok fetchImg rescaleBase nowCheck
                  nowFetch ty url dur imgs fs err attempts image hS hc hlt hf]
                exact insert_success_preserves_img_inv imgs (ty, url) image _
                  hi

theorem proxy_preserves_invs (fetchImg : String → Except FetchError Image)
    (fetchMagic : String → Except FetchError (String × Nat))
    (rescaleBase : ImgType → String) (tMagic tMagicFetch tCheck tFetch : Int)
    (img_type url : String) (imgs : ImgMap) (magic : MagicMap) (fs : FS)
    (hi : ImgCacheInv imgs) (hm : MagicCacheInv magic) :
    ImgCacheInv (proxy_img fetchImg fetchMagic rescaleBase tMagic tMagicFetch
        tCheck tFetch img_type url imgs magic fs).imgs ∧
    MagicCacheInv (proxy_img fetchImg fetchMagic rescaleBase tMagic tMagicFetch
        tCheck tFetch img_type url imgs magic fs).magic := by
  unfold proxy_img
  cases hmg : img_type == "magic" with
  | false =>
      simp only [hmg, Bool.false_eq_true, if_false]
      cases hpu : img_type == PURGE_MAGIC_KEYWORD with
      | true =>
          simp only [hpu, if_true]
          exact ⟨hi, mapRemove_preserves_magic_inv magic url hm⟩
      | false =>
          simp only [hpu, Bool.false_eq_true, if_false]
          rcases hty : (match img_type with
            | "thumbnail" => some ImgType.Thumbnail
            | "large" => some ImgType.Large
            | _ => none) with _ | ty
          · rw [hty]
            exact ⟨hi, hm⟩
          · rw [hty]
            simp only [hmg, Bool.false_eq_true, if_false]
            exact ⟨resolved_preserves_img_inv fetchImg rescaleBase tCheck
              tFetch ty url _ imgs fs hi, hm⟩
  | true =>
      simp only [hmg, if_true]
      rcases hsp : splitOnce '/' url with _ | tu
      · exact ⟨hi, hm⟩
      · cases hpu : tu.1 == PURGE_MAGIC_KEYWORD with
        | true =>
            simp only [hpu, if_true]
            exact ⟨hi, mapRemove_preserves_magic_inv magic tu.2 hm⟩
        | false =>
            simp only [hpu, Bool.false_eq_true, if_false]
            rcases hty : (match tu.1 with
              | "thumbnail" => some ImgType.Thumbnail
              | "large" => some ImgType.Large
              | _ => none) with _ | ty
            · rw [hty]
              exact ⟨hi, hm⟩
            · rw [hty]
              simp only [hmg, if_true]
              rcases hres : (resolve_magic_url fetchMagic tMagic tMagicFetch
                tu.2 magic).res with e | rs
              · exact ⟨hi, resolve_preserves_magic_inv fetchMagic tMagic
                  tMagicFetch tu.2 magic hm⟩
              · exact ⟨resolved_preserves_img_inv fetchImg rescaleBase tCheck
                    tFetch ty rs.1 _ imgs fs hi,
                  resolve_preserves_magic_inv fetchMagic tMagic tMagicFetch
                    tu.2 magic hm⟩

/-- C9.  In every pair of cache states reachable from process start — via
whole requests and via spawned background refreshes — every `Failed` entry of
either cache carries a non-empty attempts list; a non-empty list always has a
last element to read; and for a non-empty attempts list (of any length the
`usize → u32` cast leaves intact) the exponent actually computed is exactly
`attempts.len() - 1`, with no wrap-around of the subtraction, in both caches'
backoff formulas. -/
theorem c9_attempts_nonempty :
    (∀ (imgs : ImgMap) (magic : MagicMap), Reachable imgs magic →
      ImgCacheInv imgs ∧ MagicCacheInv magic) ∧
    (∀ (a : List Int), a ≠ [] → (a.getLast?).isSome = true) ∧
    (∀ n : Nat, 1 ≤ n → n < 2 ^ 32 →
      imgBackoffNanos n =
          ((min MAX_REFRESH_TIMEOUT (2 ^ (n - 1) % 2 ^ 64) : Nat) : Int) * NANOS ∧
        magicBackoffNanos n =
          ((min MAX_REFRESH_TIMEOUT (2 ^ (n - 1) % 2 ^ 64) : Nat) : Int) * NANOS) := by
  refine ⟨?_, ?_, ?_⟩
  · intro imgs magic hreach
    induction hreach with
    | init =>
        exact ⟨fun p err a h => Option.noConfusion h,
          fun u err a h => Option.noConfusion h⟩
    | step imgs magic fetchImg fetchMagic rescaleBase tMagic tMagicFetch
        tCheck tFetch img_type url fs _ ih =>
        exact proxy_preserves_invs fetchImg fetchMagic rescaleBase tMagic
          tMagicFetch tCheck tFetch img_type url imgs magic fs ih.1 ih.2
    | bg imgs magic fetchMagic now url _ ih =>
        exact ⟨ih.1, mfac_preserves_magic_inv fetchMagic now url magic [] ih.2⟩
  · intro a ha
    exact List.getLast?_isSome.mpr ha
  · intro n h1 h32
    have he : (n % 2 ^ 32 + (2 ^ 32 - 1)) % 2 ^ 32 = n - 1 := by omega
    constructor
    · simp only [imgBackoffNanos]
      rw [he]
    · simp only [magicBackoffNanos]
      rw [he]

/-- Witness for C9 at the initial state and a one-element attempts list. -/
theorem c9_witness :
    (ImgCacheInv (fun _ => none) ∧ MagicCacheInv (fun _ => none)) ∧
    (([(3 : Int)].getLast?).isSome = true) ∧
    imgBackoffNanos 1 =
      ((min MAX_REFRESH_TIMEOUT (2 ^ (1 - 1) % 2 ^ 64) : Nat) : Int) * NANOS :=
  ⟨c9_attempts_nonempty.1 _ _ Reachable.init,
    c9_attempts_nonempty.2.1 [(3 : Int)] (by decide),
    (c9_attempts_nonempty.2.2 1 (by decide) (by decide)).1⟩

/-- C10.  A stale magic `Success` entry is served as-is while spawning exactly
one background refresh whose attempts argument is empty; consequently, when
such a refresh fails, the `Failed` entry it installs for the magic URL holds
exactly one attempt timestamp, whatever failure history the URL had before. -/
theorem c10_background_refresh :
    (∀ (fetchMagic : String → Except FetchError (String × Nat))
        (now nowFetch : Int) (url : String) (magic : MagicMap) (murl : String)
        (status : Nat) (time : Int),
      magic url = some (.Success murl status time) →
      now - time > MAGIC_CACHE_DURATION_SECONDS * NANOS →
      resolve_magic_url fetchMagic now nowFetch url magic =
        ⟨.ok (murl, status), magic, [], [(url, [])]⟩) ∧
    (∀ (fetchMagic : String → Except FetchError (String × Nat)) (now : Int)
        (url : String) (magic : MagicMap) (e : FetchError),
      fetchMagic url = .error e →
      (magic_fetch_and_cache fetchMagic now url magic []).magic url =
          some (.Failed e [now]) ∧
        (magic_fetch_and_cache fetchMagic now url magic []).res = .error e) := by
  constructor
  · intro fetchMagic now nowFetch url magic murl status time hc hstale
    exact magic_success_stale fetchMagic now nowFetch url magic murl status
      time hc hstale
  · intro fetchMagic now url magic e hf
    rw [mfac_err fetchMagic now url magic [] e hf]
    refine ⟨?_, rfl⟩
    have h := mapInsert_self magic url (CachedMagicUrl.Failed e ([] ++ [now]))
    simpa using h

/-- Witness for C10: a stale success spawns one empty-attempts refresh, and a
failing refresh installs a single-attempt entry. -/
theorem c10_witness :
    resolve_magic_url (fun _ => .error .RequestFailed)
        (3601 * 1000000000) 0 "mu"
        (mapInsert (fun _ => none) "mu" (.Success "ru" 200 0)) =
      ⟨.ok ("ru", 200), mapInsert (fun _ => none) "mu" (.Success "ru" 200 0),
        [], [("mu", [])]⟩ ∧
    (magic_fetch_and_cache (fun _ => .error .RequestFailed) 9 "mu"
        (fun _ => none) []).magic "mu" =
      some (.Failed .RequestFailed [9]) :=
  ⟨c10_background_refresh.1 _ (3601 * 1000000000) 0 "mu" _ "ru" 200 0
      (by decide) (by decide),
    (c10_background_refresh.2 _ 9 "mu" (fun _ => none) .RequestFailed
      (by decide)).1⟩

end ImgProxy
